import Mathlib

/-!
Shallow embedding of the SIC two-pass assembler (assembler.h, util.h,
dynamic_array.h) and proofs about its behaviour.

Source strings are modelled as `List Char`; a character read from a source
file is a byte, so the interesting values are code points below 256.
C++ `int` arithmetic is modelled with unbounded `Nat`/`Int` (no overflow);
where the source prints a negative `int` in hex, the two's-complement
32-bit rendering is reproduced explicitly.
-/

namespace SIC

/-- The apostrophe character used as the BYTE operand quote. -/
def quoteChar : Char := Char.ofNat 39

/-- Fallback character for out-of-range reads, standing in for the
`charT()` value that `std::string::operator[]` yields at `size()`. -/
def nulChar : Char := Char.ofNat 0

/-! ## util.h -/

/-- Util::isLowerCase. -/
def isLowerCase (c : Char) : Bool := 97 ≤ c.toNat && c.toNat ≤ 122

/-- Util::isUpperCase. -/
def isUpperCase (c : Char) : Bool := 65 ≤ c.toNat && c.toNat ≤ 90

/-- Util::isDigit. -/
def isDigit (c : Char) : Bool := 48 ≤ c.toNat && c.toNat ≤ 57

/-- Util::isAlpha. -/
def isAlpha (c : Char) : Bool := isLowerCase c || isUpperCase c

/-- Util::isAlphaNumeric. -/
def isAlphaNumeric (c : Char) : Bool := isAlpha c || isDigit c

/-- Character-level upper-casing: `c -= 32` applied to `a`-`z` only,
as in Util::toUpperCase. -/
def toUpperChar (c : Char) : Char :=
  if isLowerCase c then Char.ofNat (c.toNat - 32) else c

/-- Util::toUpperCase on a whole string. -/
def listToUpper (l : List Char) : List Char := l.map toUpperChar

/-- Util::isHexDigit: digit or letter A-F, lowercase accepted. -/
def isHexDigit (c : Char) : Bool :=
  let c := toUpperChar c
  isDigit c || (65 ≤ c.toNat && c.toNat ≤ 70)

/-- Util::hasHexFormat: all characters alphanumeric, letters restricted to
A-F (uppercase only; lowercase letters are alphabetic but compare above
the code point of F, so they are rejected). -/
def hasHexFormat (l : List Char) : Bool :=
  l.all (fun c => isAlphaNumeric c && !(isAlpha c && (c.toNat < 65 || 70 < c.toNat)))

/-- Util::findChar. -/
def findChar (src : List Char) (c : Char) : Bool := src.any (fun x => x == c)

/-- The delimiter set "\t " used by pass 1 and the lexer. -/
def delimChars : List Char := [Char.ofNat 9, Char.ofNat 32]

/-- Numeric value of a digit character as computer by Util::stringToInt
(`c - '0'` for digits, `c - 'A' + 10` for letters). -/
def digitVal (c : Char) : Nat :=
  if isDigit c then c.toNat - 48 else c.toNat - 65 + 10

/-- Positional accumulation loop of Util::stringToInt: each character is
upper-cased, must be alphanumeric, must be a decimal digit when the base
is at most 10 and a hex digit when the base is 16, and contributes
`digit * base ^ position`. -/
def stringToIntAux (base : Nat) : List Char → Option Nat
  | [] => some 0
  | c :: rest =>
    let c := toUpperChar c
    if isAlphaNumeric c then
      if base ≤ 10 && !isDigit c then none
      else if base = 16 && !isHexDigit c then none
      else
        match stringToIntAux base rest with
        | some s => some (digitVal c * base ^ rest.length + s)
        | none => none
    else none

/-- Util::stringToInt: fails on the empty string, otherwise the positional
sum. The source never produces a negative value (no sign handling). -/
def stringToInt (src : List Char) (base : Nat) : Option Nat :=
  if src.isEmpty then none else stringToIntAux base src

/-- Tokenizing loop of Util::parseLine: maximal runs of non-delimiter
characters, in order, empty tokens dropped. -/
def parseLineAux : List Char → List Char → List (List Char)
  | [], acc => if acc.isEmpty then [] else [acc.reverse]
  | c :: rest, acc =>
    if findChar delimChars c then
      if acc.isEmpty then parseLineAux rest []
      else acc.reverse :: parseLineAux rest []
    else parseLineAux rest (c :: acc)

/-- Util::parseLine. -/
def parseLine (l : List Char) : List (List Char) := parseLineAux l []

/-! ## Hex rendering (std::hex stream output) -/

/-- Lowercase hex digits of a natural number, as `operator<<` with
`std::hex` prints a non-negative int. -/
def natToHex (n : Nat) : List Char := Nat.toDigits 16 n

/-- Decimal digits, the stream default base. -/
def natToDec (n : Nat) : List Char := Nat.toDigits 10 n

/-- Hex rendering of a C++ `int`: non-negative values print as such, a
negative value prints as its unsigned 32-bit two's-complement pattern. -/
def intHex (i : Int) : List Char :=
  if i < 0 then natToHex (4294967296 - i.natAbs) else natToHex i.toNat

/-- `std::setw w` with `std::setfill f` before a right-aligned field:
pad on the left, never truncate. -/
def padLeft (w : Nat) (f : Char) (s : List Char) : List Char :=
  List.replicate (w - s.length) f ++ s

/-- `std::left << std::setw w << std::setfill f`: pad on the right. -/
def padRight (w : Nat) (f : Char) (s : List Char) : List Char :=
  s ++ List.replicate (w - s.length) f

/-- Hex stream output of one character of a BYTE C operand:
`stream << std::hex << (int)c` where `c` is a (signed, on Linux) `char`.
Bytes 128-255 are negative as `char`, so they print sign-extended as
8 hex digits. Code points above 255 do not occur in file input. -/
def charIntHex (c : Char) : List Char :=
  if c.toNat < 128 then natToHex c.toNat
  else if c.toNat < 256 then natToHex (4294967296 - 256 + c.toNat)
  else natToHex c.toNat

/-! ## assembler.h: tables and small helpers -/

/-- The opcode table built by Assembler::createOpTable. -/
def opcodeTable : List (List Char × Nat) :=
  [("ADD".data, 0x18), ("AND".data, 0x58), ("COMP".data, 0x28),
   ("DIV".data, 0x24), ("J".data, 0x3C), ("JEQ".data, 0x30),
   ("JGT".data, 0x34), ("JLT".data, 0x38), ("JSUB".data, 0x48),
   ("LDA".data, 0x00), ("LDCH".data, 0x50), ("LDL".data, 0x08),
   ("LDX".data, 0x04), ("MUL".data, 0x20), ("OR".data, 0x44),
   ("RD".data, 0xD8), ("RSUB".data, 0x4C), ("STA".data, 0x0C),
   ("STCH".data, 0x54), ("STL".data, 0x14), ("STX".data, 0x10),
   ("SUB".data, 0x1C), ("TD".data, 0xE0), ("TIX".data, 0x2C),
   ("WD".data, 0xDC)]

/-- Modelled from the spec: `MSIZE` comes from the external `sicengine.h`,
which is not part of this repository; section 6 of the specification fixes
it at 32768 bytes. -/
def MSIZE : Nat := 32768

/-- Assembler::isIndexedOperand: at least three characters and the last two
are ",X". An empty operand would index out of range in the source
(unsigned wrap-around); pass 1 flags empty operands so the case is never
reached, and it is mapped to `false` here. -/
def isIndexedOperand (operand : List Char) : Bool :=
  let n := operand.length
  2 ≤ n - 1 && operand.getD (n - 1) nulChar == 'X'
    && operand.getD (n - 2) nulChar == ','

/-- Assembler::getOperandFromIndexed: characters before the first comma. -/
def getOperandFromIndexed (source : List Char) : List Char :=
  source.takeWhile (fun c => !(c == ','))

/-- The operand with a possible ",X" suffix removed, as done at the top of
createObjectCode. -/
def stripIndexed (operand : List Char) : List Char :=
  if isIndexedOperand operand then getOperandFromIndexed operand else operand

/-- Assembler::isHexSymbol: non-empty, starts with a decimal digit, and the
whole string has hex format. -/
def isHexSymbol (symbol : List Char) : Bool :=
  !symbol.isEmpty && isDigit (symbol.headD nulChar) && hasHexFormat symbol

/-- Assembler::setMSB: `address |= 1 << 15`. -/
def setMSB (address : Nat) : Nat := address ||| 32768

/-- Assembler::getByteOperand: characters strictly between the first quote
(index 1) and the last character; empty unless the operand has more than
three characters. -/
def getByteOperand (operand : List Char) : List Char :=
  if operand.length > 3 then (operand.drop 2).take (operand.length - 3)
  else []

/-- Assembler::isValidSymbol: at most 6 characters, alphabetic first
character, alphanumeric rest; returns the validity together with the error
codes it appends to the line's error string. Calling it on an empty string
throws in the source (std::string::at); every call site either guards for
non-emptiness or crashes, so the `[]` case here is never consulted. -/
def isValidSymbol (src : List Char) : Bool × List Char :=
  if src.length > 6 then (false, "0010".data)
  else
    match src with
    | [] => (false, [])
    | c :: rest =>
      if !isAlpha c then (false, "0011".data)
      else if rest.all isAlphaNumeric then (true, [])
      else (false, "0012".data)

/-- Assembler::isValidOperand: non-empty; an operand starting with `0` must
be a hex symbol; with a ",X" suffix the part before the comma must be
alphanumeric, otherwise the whole operand must be; returns validity and
the error codes appended ("0013" for the alphanumeric failures). -/
def isValidOperand (src : List Char) : Bool × List Char :=
  if src.isEmpty then (false, [])
  else if src.headD nulChar == '0' && !isHexSymbol src then (false, [])
  else
    let n := src.length
    if 3 ≤ n && src.getD (n - 1) nulChar == 'X' && src.getD (n - 2) nulChar == ',' then
      if (src.take (n - 2)).all isAlphaNumeric then (true, [])
      else (false, "0013".data)
    else
      if src.all isAlphaNumeric then (true, []) else (false, "0013".data)

/-- Assembler::getConstantLength for the BYTE directive: returns the byte
size (`none` for the source's `-1`) together with the error codes the
function appends. -/
def getConstantLength (operand : List Char) : Option Nat × List Char :=
  let n := operand.length
  if n < 4 then (none, [])
  else
    let c := operand.getD 0 nulChar
    if !(c == 'C') && !(c == 'X') then (none, "0009".data)
    else if !(operand.getD 1 nulChar == quoteChar)
        || !(operand.getD (n - 1) nulChar == quoteChar) then (none, "0005".data)
    else
      let operlen := n - 3
      if c == 'C' then
        if operlen > 30 then (none, "0007".data) else (some operlen, [])
      else
        if !((operand.drop 2).take (n - 3)).all isHexDigit then (none, [])
        else if operlen > 32 then (none, "0008".data)
        else if operlen % 2 = 1 then (none, "0006".data)
        else (some (operlen / 2), [])

/-! ## assembler.h: createObjectCode -/

/-- Assembler::createObjectCode. The opcode argument is the second line of
an intermediate block (a lowercase hex byte for recognized instructions,
the literal mnemonic for directives); the table is the pass-1 symbol
table. Follows the source's case order: RESB/RESW, BYTE, WORD, hex
symbol, symbol-table hit, RSUB fallback, otherwise the empty string. -/
def createObjectCode (tbl : List (List Char × Nat)) (opcode operand : List Char) :
    List Char :=
  if opcode = "RESB".data ∨ opcode = "RESW".data then []
  else
    let isIndexed := isIndexedOperand operand
    let operand := stripIndexed operand
    if opcode = "BYTE".data then
      let ty := operand.getD 0 nulChar
      let v := getByteOperand operand
      if ty == 'C' then v.flatMap charIntHex
      else if ty == 'X' then v
      else []
    else if opcode = "WORD".data then
      let a : Int := match stringToInt operand 10 with
        | some v => (v : Int)
        | none => -1
      padLeft 6 '0' (intHex a)
    else if isHexSymbol operand then
      match stringToInt operand 16 with
      | some v => padLeft 2 '0' opcode ++ padLeft 4 '0' (natToHex v)
      | none => padLeft 2 '0' opcode
    else
      match List.lookup operand tbl with
      | some a =>
        padLeft 2 '0' opcode ++
          padLeft 4 '0' (natToHex (if isIndexed then setMSB a else a))
      | none =>
        match stringToInt opcode 16 with
        | some v => if v = 76 then padRight 6 '0' opcode else []
        | none => []

/-! ## assembler.h: pass 1 -/

/-- One five-line block of the intermediate file: source line (uppercased),
resolved opcode, location counter rendering, operand, error-code string. -/
structure Block where
  srcLine : List Char
  opcode : List Char
  address : List Char
  operand : List Char
  errorList : List Char
deriving DecidableEq, Repr

/-- Assembler state across pass 1: the private members touched by the pass
plus the intermediate blocks written so far. `hexSet` tracks whether the
`std::hex` manipulator has been applied to the intermediate stream (the
location counter prints in decimal until then). `finished` records the
`break` on END; `crashed` records the uncaught `std::string::at` exception
raised by an END directive with an empty operand. -/
structure P1State where
  locctr : Nat
  startingAddress : Nat
  programLength : Int
  symtab : List (List Char × Nat)
  startFound : Bool
  hexSet : Bool
  anyErrors : Bool
  blocks : List Block
  finished : Bool
  crashed : Bool
deriving DecidableEq, Repr

/-- The constructor state. `locctr` is uninitialized in the source and is
first written before any read on every path that reads it; 0 here. -/
def p1Init : P1State :=
  { locctr := 0, startingAddress := 0, programLength := 0, symtab := [],
    startFound := false, hexSet := false, anyErrors := false, blocks := [],
    finished := false, crashed := false }

/-- Assembler::getColumns: uppercase the line, tokenize, pad/truncate to
four slots, and shift in an empty label when the line starts with a
delimiter. Returns (label, opcode, operand). -/
def getColumns (line : List Char) : List Char × List Char × List Char :=
  let up := listToUpper line
  let ts := parseLine up
  let ts := ts.take 4 ++ List.replicate (4 - ts.length) []
  let ts := if findChar delimChars (up.headD nulChar) then [] :: ts else ts
  (ts.getD 0 [], ts.getD 1 [], ts.getD 2 [])

/-- Error codes produced by validating a symbol: the codes isValidSymbol
itself appends followed by "0004" from the caller when it fails. -/
def symErrs (l : List Char) : List Char :=
  (isValidSymbol l).2 ++ (if (isValidSymbol l).1 then [] else "0004".data)

/-- The pass-1 operand check at the top of the per-line dispatch: skipped
for the four storage directives, otherwise isValidOperand's codes followed
by "0001" on failure. -/
def p1OperandCheck (opcode operand : List Char) : List Char :=
  if opcode = "BYTE".data ∨ opcode = "WORD".data ∨ opcode = "RESW".data
      ∨ opcode = "RESB".data then []
  else (isValidOperand operand).2 ++
    (if (isValidOperand operand).1 then [] else "0001".data)

/-- Label handling in pass 1: nothing for an absent label; "0002" for a
duplicate (no overwrite); otherwise validation codes and an unconditional
insert of (label, locctr). -/
def p1LabelStep (t : List (List Char × Nat)) (label : List Char) (loc : Nat) :
    List (List Char × Nat) × List Char :=
  if label.isEmpty then (t, [])
  else
    match List.lookup label t with
    | some _ => (t, "0002".data)
    | none => (t ++ [(label, loc)], symErrs label)

/-- Result of the pass-1 opcode dispatch for a non-START/END line: error
codes, location-counter increment, the opcode string written to the
intermediate file, and whether the mnemonic was found in the opcode
table. -/
structure Dispatch where
  errs : List Char
  increment : Nat
  opcodeStr : List Char
  opFound : Bool
deriving DecidableEq, Repr

/-- The WORD/RESW/RESB/BYTE/opcode-table dispatch of pass 1. WORD always
advances by 3, even with an unparsable operand; RESW/RESB advance by the
parsed count (or 0 with "0001"); BYTE advances by getConstantLength's size
(or 0 with its codes plus "0001"); a recognized mnemonic advances by 3 and
is written as its hex byte; anything else is "0003". -/
def p1Dispatch (opcode operand : List Char) : Dispatch :=
  if opcode = "WORD".data then
    { errs := match stringToInt operand 10 with
        | some _ => []
        | none => "0001".data,
      increment := 3, opcodeStr := opcode, opFound := false }
  else if opcode = "RESW".data then
    match stringToInt operand 10 with
    | some v => { errs := [], increment := 3 * v, opcodeStr := opcode, opFound := false }
    | none => { errs := "0001".data, increment := 0, opcodeStr := opcode, opFound := false }
  else if opcode = "RESB".data then
    match stringToInt operand 10 with
    | some v => { errs := [], increment := v, opcodeStr := opcode, opFound := false }
    | none => { errs := "0001".data, increment := 0, opcodeStr := opcode, opFound := false }
  else if opcode = "BYTE".data then
    match getConstantLength operand with
    | (some l, e) => { errs := e, increment := l, opcodeStr := opcode, opFound := false }
    | (none, e) => { errs := e ++ "0001".data, increment := 0, opcodeStr := opcode, opFound := false }
  else
    match List.lookup opcode opcodeTable with
    | some v => { errs := [], increment := 3, opcodeStr := natToHex v, opFound := true }
    | none => { errs := "0003".data, increment := 0, opcodeStr := opcode, opFound := false }

/-- The START branch of pass 1: "0015" (and the anyErrors flag) on a
repeated START, label validation, then the location counter is set from
the base-16 operand, or to 0 with "0001" when that fails. -/
def p1Start (st : P1State) (up label operand : List Char) : P1State :=
  let e1 := if st.startFound then "0015".data else []
  let eLab := if label.isEmpty then [] else symErrs label
  match (if operand.isEmpty then none else stringToInt operand 16) with
  | none =>
    { st with
      locctr := 0
      startingAddress := 0
      startFound := true
      hexSet := true
      anyErrors := st.anyErrors || st.startFound
      blocks := st.blocks ++
        [{ srcLine := up, opcode := "START".data, address := natToHex 0,
           operand := operand, errorList := e1 ++ eLab ++ "0001".data }] }
  | some v =>
    { st with
      locctr := v
      startingAddress := v
      startFound := true
      hexSet := true
      anyErrors := st.anyErrors || st.startFound
      blocks := st.blocks ++
        [{ srcLine := up, opcode := "START".data, address := natToHex v,
           operand := operand, errorList := e1 ++ eLab }] }

/-- The END branch of pass 1: the block is written, the operand must be a
valid symbol or hex value ("0017" otherwise, with isValidSymbol's own
codes emitted first), the program length is fixed, and the pass stops. An
empty END operand makes isValidSymbol throw after the first four block
lines are written; modelled as `crashed` with the partial block dropped
(nothing ever reads it, since pass 2 does not run after the throw). -/
def p1End (st : P1State) (up operand e1 : List Char) : P1State :=
  match operand with
  | [] => { st with crashed := true, hexSet := true }
  | _ :: _ =>
    let r := isValidSymbol operand
    let e2 := r.2 ++ (if !r.1 && !isHexSymbol operand then "0017".data else [])
    { st with
      blocks := st.blocks ++
        [{ srcLine := up, opcode := "END".data, address := natToHex st.locctr,
           operand := operand, errorList := e1 ++ e2 }]
      programLength := (st.locctr : Int) - (st.startingAddress : Int)
      finished := true
      hexSet := true }

/-- The general branch of pass 1 (neither START nor END): label handling,
opcode dispatch, block emission and the locctr increment. The block's
address renders in hex only once the std::hex manipulator has been applied
to the intermediate stream (any earlier START/END/instruction line, or
this line itself when its opcode is recognized). -/
def p1General (st : P1State) (up label opcode operand e1 : List Char) : P1State :=
  let lr := p1LabelStep st.symtab label st.locctr
  let d := p1Dispatch opcode operand
  { st with
    symtab := lr.1
    locctr := st.locctr + d.increment
    hexSet := st.hexSet || d.opFound
    blocks := st.blocks ++
      [{ srcLine := up, opcode := d.opcodeStr,
         address := if st.hexSet || d.opFound then natToHex st.locctr
           else natToDec st.locctr,
         operand := operand, errorList := e1 ++ lr.2 ++ d.errs }] }

/-- One iteration of the pass-1 read loop on a raw source line: skip empty
lines, comment lines and all-empty token triples; dispatch START; default
the location counter to 0 when the first line is not a START; run the
operand check; then END or the general branch. After END (or the END
crash) every remaining line is ignored. -/
def pass1Line (st : P1State) (line : List Char) : P1State :=
  if st.finished || st.crashed then st
  else
    match line with
    | [] => st
    | c :: _ =>
      if c == '.' then st
      else
        let cols := getColumns line
        let label := cols.1
        let opcode := cols.2.1
        let operand := cols.2.2
        if label.length + opcode.length + operand.length = 0 then st
        else
          let up := listToUpper line
          if opcode = "START".data then p1Start st up label operand
          else
            let st1 := if st.startFound then st
              else { st with locctr := 0, startingAddress := 0, startFound := true }
            let e1 := p1OperandCheck opcode operand
            if opcode = "END".data then p1End st1 up operand e1
            else p1General st1 up label opcode operand e1

/-- Pass 1 from an arbitrary state over the remaining source lines. -/
def pass1From (st : P1State) (lines : List (List Char)) : P1State :=
  lines.foldl pass1Line st

/-- Assembler::pass1 on the list of source lines. -/
def pass1Run (lines : List (List Char)) : P1State := pass1From p1Init lines

/-! ## assembler.h: pass 2 -/

/-- A write to the object file stream: the H record, the "T"+address
opening of a text record, the size byte plus machine-code section that
closes one, or the E record. All fields are stored already formatted
(padded, uppercased). -/
inductive ObjPiece where
  | header (name addr len : List Char)
  | recStart (addr : List Char)
  | recEnd (size code : List Char)
  | endRec (addr : List Char)
deriving DecidableEq, Repr

/-- A write to the listing file: an ordinary row (address, object code,
source line, error-code string, all as passed to writeToListingFile), the
post-pass oversized-program notice (with the locctr it reports), or the
missing-END notice. -/
inductive ListingEntry where
  | row (address objectCode source errors : List Char)
  | oversizedNotice (locctr : Nat)
  | missingEndNotice
deriving DecidableEq, Repr

/-- Pass-2 loop state: the machine-code accumulation buffer and the flags
of the source, plus the two output streams. -/
structure P2State where
  buffer : List Char
  startSet : Bool
  endFound : Bool
  makeNewTextRec : Bool
  anyErrors : Bool
  objectFile : List ObjPiece
  listing : List ListingEntry
deriving DecidableEq, Repr

/-- The pass-1 results pass 2 reads: the symbol table (for
createObjectCode), program length (H record), starting address (E record)
and final location counter (oversize check). -/
structure Env where
  symtab : List (List Char × Nat)
  programLength : Int
  startingAddress : Nat
  locctr : Nat
deriving DecidableEq, Repr

/-- Assembler::createHeaderRecord: name left-aligned space-padded to 6,
address uppercased zero-padded to 6, program length in uppercase hex
zero-padded to 6. -/
def createHeaderRecord (progLen : Int) (name addr : List Char) : ObjPiece :=
  ObjPiece.header (padRight 6 ' ' name) (padLeft 6 '0' (listToUpper addr))
    (padLeft 6 '0' (listToUpper (intHex progLen)))

/-- Assembler::startTextRecord: "T" plus the uppercased address
zero-padded to 6. -/
def startTextRecord (addr : List Char) : ObjPiece :=
  ObjPiece.recStart (padLeft 6 '0' (listToUpper addr))

/-- Assembler::finishTextRecord: byte count (buffer length / 2) in
uppercase hex zero-padded to 2, then the uppercased machine-code
section. -/
def finishTextRecord (buf : List Char) : ObjPiece :=
  ObjPiece.recEnd (padLeft 2 '0' (listToUpper (natToHex (buf.length / 2))))
    (listToUpper buf)

/-- Assembler::createEndRecord: "E" plus the starting address in uppercase
hex zero-padded to 6. -/
def createEndRecord (startingAddress : Nat) : ObjPiece :=
  ObjPiece.endRec (padLeft 6 '0' (listToUpper (natToHex startingAddress)))

/-- The anyErrors update at the top of each pass-2 iteration. -/
def p2MarkErrors (st : P2State) (b : Block) : P2State :=
  { st with anyErrors := st.anyErrors || !b.errorList.isEmpty }

/-- The START branch of the pass-2 loop: listing row; on the first block,
the H record (program name = source line up to the first space) and the
opening of the first text record. -/
def p2StartBlock (env : Env) (st : P2State) (b : Block) : P2State :=
  let st := { st with
    listing := st.listing ++ [ListingEntry.row b.address [] b.srcLine b.errorList] }
  if !st.startSet then
    { st with
      startSet := true
      objectFile := st.objectFile ++
        [createHeaderRecord env.programLength
          (b.srcLine.takeWhile (fun c => !(c == ' '))) b.address,
         startTextRecord b.address] }
  else { st with startSet := true }

/-- The default NONAME header emitted when the first block is not a
START. -/
def p2DefaultHeader (env : Env) (st : P2State) (b : Block) : P2State :=
  if !st.startSet then
    { st with
      startSet := true
      objectFile := st.objectFile ++
        [createHeaderRecord env.programLength "NONAME".data "00000".data,
         startTextRecord b.address] }
  else st

/-- The END branch: flush a non-empty text record, emit the listing row
(empty address and object code) and the E record, stop the loop. -/
def p2EndBlock (env : Env) (st : P2State) (b : Block) : P2State :=
  let st :=
    if st.buffer.length ≠ 0 then
      { st with objectFile := st.objectFile ++ [finishTextRecord st.buffer] }
    else st
  { st with
    listing := st.listing ++ [ListingEntry.row [] [] b.srcLine b.errorList]
    objectFile := st.objectFile ++ [createEndRecord env.startingAddress]
    endFound := true }

/-- Deferred text-record opening after a reserve-directive flush: the next
block producing object code opens the record at its own address. -/
def p2OpenPending (st : P2State) (objectCode addr : List Char) : P2State :=
  if !objectCode.isEmpty && st.makeNewTextRec then
    { st with
      objectFile := st.objectFile ++ [startTextRecord addr]
      makeNewTextRec := false }
  else st

/-- Text-record packing: when the object code is empty (reserve) or would
not fit, flush the current (non-empty) buffer; after a size-driven flush a
new record opens immediately at this block's address, after a
reserve-driven flush the opening is deferred. -/
def p2FlushIfNeeded (st : P2State) (objectCode addr : List Char) : P2State :=
  if objectCode.isEmpty || objectCode.length + st.buffer.length > 60 then
    if st.buffer.length ≠ 0 then
      let st := { st with
        objectFile := st.objectFile ++ [finishTextRecord st.buffer] }
      let st :=
        if !objectCode.isEmpty then
          { st with objectFile := st.objectFile ++ [startTextRecord addr] }
        else { st with makeNewTextRec := true }
      { st with buffer := [] }
    else st
  else st

/-- Appending the non-empty object code to the machine-code buffer. -/
def p2Append (st : P2State) (objectCode : List Char) : P2State :=
  if objectCode.isEmpty then st
  else { st with buffer := st.buffer ++ objectCode }

/-- A non-START, non-END block: synthesize the object code ("------" on an
errored line), emit the listing row, then open/flush/append on the record
buffer. The flush compares against the buffer length from before the
step, which p2OpenPending does not change. -/
def p2CodeBlock (env : Env) (st : P2State) (b : Block) : P2State :=
  let objectCode :=
    if b.errorList.isEmpty then createObjectCode env.symtab b.opcode b.operand
    else "------".data
  let st := { st with
    listing := st.listing ++
      [ListingEntry.row b.address objectCode b.srcLine b.errorList] }
  let st := p2OpenPending st objectCode b.address
  let st := p2FlushIfNeeded st objectCode b.address
  p2Append st objectCode

/-- One iteration of the pass-2 loop on one intermediate block: update
anyErrors, then dispatch on START / END / ordinary block, with the
default NONAME header inserted when the first block is not a START. -/
def pass2Step (env : Env) (st : P2State) (b : Block) : P2State :=
  if b.opcode = "START".data then p2StartBlock env (p2MarkErrors st b) b
  else if b.opcode = "END".data then
    p2EndBlock env (p2DefaultHeader env (p2MarkErrors st b) b) b
  else p2CodeBlock env (p2DefaultHeader env (p2MarkErrors st b) b) b

/-- The pass-2 read loop: process blocks in order, stopping after the one
that sets endFound (the source's `break`). -/
def pass2Loop (env : Env) (st : P2State) : List Block → P2State
  | [] => st
  | b :: rest =>
    let st := pass2Step env st b
    if st.endFound then st else pass2Loop env st rest

/-- Result of pass 2: the final loop state after the post-loop notices,
and whether object.txt still exists (it is removed iff anyErrors). -/
structure P2Result where
  final : P2State
  objectFileExists : Bool
deriving DecidableEq, Repr

/-- The pass-2 epilogue: the oversized-program notice when the pass-1
location counter exceeds MSIZE, the missing-END notice, and the
object-file removal on any error. -/
def pass2Post (env : Env) (st : P2State) : P2Result :=
  let st :=
    if env.locctr > MSIZE then
      { st with
        listing := st.listing ++ [ListingEntry.oversizedNotice env.locctr]
        anyErrors := true }
    else st
  let st :=
    if !st.endFound then
      { st with
        listing := st.listing ++ [ListingEntry.missingEndNotice]
        anyErrors := true }
    else st
  { final := st, objectFileExists := !st.anyErrors }

/-- The loop state at entry of pass 2; anyErrors carries over from
pass 1. -/
def p2Init (anyErrors0 : Bool) : P2State :=
  { buffer := [], startSet := false, endFound := false, makeNewTextRec := false,
    anyErrors := anyErrors0, objectFile := [], listing := [] }

/-- The environment pass 2 reads from the assembler members left by
pass 1. -/
def envOf (p1 : P1State) : Env :=
  { symtab := p1.symtab, programLength := p1.programLength,
    startingAddress := p1.startingAddress, locctr := p1.locctr }

/-- Assembler::pass2 run on the results of a pass 1. -/
def pass2Run (p1 : P1State) : P2Result :=
  pass2Post (envOf p1) (pass2Loop (envOf p1) (p2Init p1.anyErrors) p1.blocks)

/-- Both passes in sequence, as the `assemble` shell command runs them.
Meaningful when pass 1 did not crash (otherwise pass 2 never runs). -/
def assemble (lines : List (List Char)) : P2Result := pass2Run (pass1Run lines)

/-! ## Concrete test sources -/

/-- A source whose only line carries an invalid (too long) label. -/
def c2Lines : List (List Char) := ["TOOLONG7 WORD 5".data]

/-- A short program loaded near the top of memory: 4 bytes of storage at
0x7FFD, so the final location counter is 0x8001 = 32769 while the program
length is 4. -/
def c3Lines : List (List Char) :=
  [" START 7FFD".data, "B RESB 4".data, " END B".data]

/-- A BYTE C operand holding eight bytes of value 200: each prints
sign-extended as 8 hex characters. -/
def c4Line1 : List Char :=
  "B BYTE C".data ++ [quoteChar] ++ List.replicate 8 (Char.ofNat 200) ++ [quoteChar]

/-- Error-free two-line source whose single BYTE line synthesizes 64 hex
characters of object code. -/
def c4Lines : List (List Char) := [c4Line1, " END B".data]

/-- The uppercased 64-character machine-code section those eight bytes
produce. -/
def c4Section : List Char := List.flatten (List.replicate 8 ("FFFFFFC8".data))

/-- A BYTE C operand holding the single byte 0x01, which prints as one hex
digit. -/
def c5Operand : List Char := "C".data ++ [quoteChar, Char.ofNat 1, quoteChar]

/-- Error-free BYTE line with that operand. -/
def c5Line : List Char := "B BYTE ".data ++ c5Operand

/-- A BYTE X operand containing the non-hex digit G. -/
def c7Operand : List Char := "X".data ++ [quoteChar, 'G', quoteChar]

/-- BYTE line with that operand. -/
def c7Line : List Char := "B BYTE ".data ++ c7Operand

/-- A fully valid one-instruction program. -/
def c8Lines : List (List Char) := ["A LDA 0001".data, " END A".data]

/-- A program whose second START directive moves the location counter
backwards (from 0x103 to 5). -/
def c9Lines : List (List Char) :=
  [" START 100".data, " WORD 5".data, " START 5".data]

/-- The spec's text-record bound: a record-closing piece carries at most
60 hex characters of machine code (other pieces satisfy it vacuously). -/
def recEndCapped (p : ObjPiece) : Prop :=
  ∀ sz code : List Char, p = ObjPiece.recEnd sz code → code.length ≤ 60

/-! ## Counterexamples to the claims that fail on the code -/

/-- C1: refuted as stated. The operand "0036,X" ends in ",X", is stripped,
and is then encoded through the hex-literal branch, which never sets the
indexed-addressing bit: the emitted address field is 0036 (value 54,
bit 15 clear), not 8036. -/
theorem claim1_counterexample :
    createObjectCode [] ("0".data) ("0036,X".data) = "000036".data ∧
    isIndexedOperand ("0036,X".data) = true ∧
    Nat.testBit 54 15 = false := by decide

/-- C2: refuted as stated. After pass 1 on a line labelled TOOLONG7 the
symbol table contains that key with address 0 although isValidSymbol
rejects it (8 characters): the insert is unconditional, only error 0004
is recorded. -/
theorem claim2_counterexample :
    List.lookup ("TOOLONG7".data) (pass1Run c2Lines).symtab = some 0 ∧
    (isValidSymbol ("TOOLONG7".data)).1 = false := by decide

/-- C3: refuted as stated. A 4-byte program started at 0x7FFD has program
length 4, far below 32768, yet the oversized-program notice is emitted
and anyErrors set, because the check compares the final location counter
(0x8001 = 32769), not the program length. -/
theorem claim3_counterexample :
    (pass1Run c3Lines).programLength = 4 ∧
    ListingEntry.oversizedNotice 32769 ∈ (assemble c3Lines).final.listing ∧
    (assemble c3Lines).final.anyErrors = true ∧
    ¬ ((4 : Int) > 32768) := by decide

/-- C4: refuted as stated. An error-free BYTE C line whose eight
characters are the byte 200 synthesizes 64 hex characters (8 per
character, sign-extended), and the single text record of the retained
object file carries a 64-character machine-code section, exceeding the
60-character cap. -/
theorem claim4_counterexample :
    ObjPiece.recEnd ("20".data) c4Section ∈ (assemble c4Lines).final.objectFile ∧
    c4Section.length = 64 ∧
    (assemble c4Lines).objectFileExists = true ∧
    ¬ (64 ≤ 60) := by decide

/-- C5: refuted as stated. The BYTE C operand holding the single byte 0x01
passes every pass-1 check (the block's error list is empty), yet its
object code is the single hex digit "1": length 1, not 2 times the
character count 1. -/
theorem claim5_counterexample :
    (pass1Run [c5Line]).blocks.map Block.errorList = [[]] ∧
    (pass1Run [c5Line]).blocks.map Block.operand = [c5Operand] ∧
    (createObjectCode [] ("BYTE".data) c5Operand).length = 1 ∧
    ¬ ((1 : Nat) = 2 * 1) := by decide

/-- C6: refuted as stated. The operand "1F" begins with the digit 1, not
0, yet isHexSymbol accepts it (any decimal digit passes Util::isDigit) and
createObjectCode encodes it as the base-16 literal 0x1F, bypassing the
symbol table even when the table maps "1F" to address 5. -/
theorem claim6_counterexample :
    createObjectCode [("1F".data, 5)] ("0".data) ("1F".data) = "00001f".data ∧
    isHexSymbol ("1F".data) = true ∧
    ¬ (("1F".data).headD nulChar = '0') := by decide

/-- C7: refuted as stated. The BYTE operand X'G' violates the required
shape (G is not a hex digit), but getConstantLength returns -1 without
appending any code, so pass 1 emits only "0001" — none of 0005-0009 —
though the increment is indeed 0. -/
theorem claim7_counterexample :
    (pass1Run [c7Line]).blocks.map Block.errorList = ["0001".data] ∧
    (pass1Run [c7Line]).locctr = 0 ∧
    ¬ List.IsInfix ("0005".data) ("0001".data) ∧
    ¬ List.IsInfix ("0006".data) ("0001".data) ∧
    ¬ List.IsInfix ("0007".data) ("0001".data) ∧
    ¬ List.IsInfix ("0008".data) ("0001".data) ∧
    ¬ List.IsInfix ("0009".data) ("0001".data) := by decide

/-- C9: refuted as stated. After " START 100" and " WORD 5" the location
counter is 0x103 = 259; the following misplaced " START 5" line (which
draws error 0015) reassigns it to 5, a decrease. -/
theorem claim9_counterexample :
    (pass1Run (c9Lines.take 2)).locctr = 259 ∧
    (pass1Run c9Lines).locctr = 5 ∧
    (5 : Nat) < 259 := by decide

/-! ## Branch lemmas for createObjectCode -/

/-- For a non-directive opcode whose stripped operand is not a hex symbol
but is found in the symbol table, the object code is the padded opcode
followed by the 4-digit address, with the MSB set exactly when the raw
operand was indexed. -/
theorem createObjectCode_symbol (tbl : List (List Char × Nat)) (opcode operand : List Char)
    (a : Nat)
    (hR : ¬ opcode = "RESB".data) (hW : ¬ opcode = "RESW".data)
    (hB : ¬ opcode = "BYTE".data) (hWo : ¬ opcode = "WORD".data)
    (hhex : isHexSymbol (stripIndexed operand) = false)
    (hfind : List.lookup (stripIndexed operand) tbl = some a) :
    createObjectCode tbl opcode operand =
      padLeft 2 '0' opcode ++
        padLeft 4 '0' (natToHex (if isIndexedOperand operand then setMSB a else a)) := by
  simp [createObjectCode, hR, hW, hB, hWo, hhex, hfind]

/-- For a non-directive opcode whose stripped operand is a hex symbol, the
object code is the padded opcode followed by the 4-digit parsed literal,
with no reference to the symbol table and no MSB adjustment. -/
theorem createObjectCode_hex (tbl : List (List Char × Nat)) (opcode operand : List Char)
    (v : Nat)
    (hR : ¬ opcode = "RESB".data) (hW : ¬ opcode = "RESW".data)
    (hB : ¬ opcode = "BYTE".data) (hWo : ¬ opcode = "WORD".data)
    (hhex : isHexSymbol (stripIndexed operand) = true)
    (hparse : stringToInt (stripIndexed operand) 16 = some v) :
    createObjectCode tbl opcode operand =
      padLeft 2 '0' opcode ++ padLeft 4 '0' (natToHex v) := by
  simp [createObjectCode, hR, hW, hB, hWo, hhex, hparse]

/-- Bit 15 of an address is set after setMSB. -/
theorem testBit_setMSB (a : Nat) : Nat.testBit (setMSB a) 15 = true := by
  rw [setMSB, Nat.testBit_or]
  have h : Nat.testBit 32768 15 = true := by decide
  rw [h, Bool.or_true]

/-- C1, amended: for operands resolved through the symbol table (with the
SIC-legal address range, below 2^15), bit 15 of the emitted address value
is set iff the operand ends in ",X"; for hex-literal operands the claim
fails (see the counterexample): the suffix is stripped but the bit is
never set. -/
theorem claim1_indexed_bit (tbl : List (List Char × Nat)) (opcode operand : List Char)
    (a : Nat)
    (hR : ¬ opcode = "RESB".data) (hW : ¬ opcode = "RESW".data)
    (hB : ¬ opcode = "BYTE".data) (hWo : ¬ opcode = "WORD".data)
    (hhex : isHexSymbol (stripIndexed operand) = false)
    (hfind : List.lookup (stripIndexed operand) tbl = some a)
    (ha : a < 32768) :
    createObjectCode tbl opcode operand =
      padLeft 2 '0' opcode ++
        padLeft 4 '0' (natToHex (if isIndexedOperand operand then setMSB a else a)) ∧
    Nat.testBit (if isIndexedOperand operand then setMSB a else a) 15 =
      isIndexedOperand operand := by
  refine ⟨createObjectCode_symbol tbl opcode operand a hR hW hB hWo hhex hfind, ?_⟩
  cases h : isIndexedOperand operand with
  | true => simp [h, testBit_setMSB]
  | false =>
    simp only [h, if_neg Bool.false_ne_true]
    apply Nat.testBit_lt_two_pow
    exact ha

/-- Witness for claim1_indexed_bit at the spec's own scenario: BUF at
address 0x36, operand "BUF,X", opcode byte 00 (LDA). -/
theorem claim1_indexed_bit_witness :
    createObjectCode [("BUF".data, 54)] ("0".data) ("BUF,X".data) =
      padLeft 2 '0' ("0".data) ++
        padLeft 4 '0'
          (natToHex (if isIndexedOperand ("BUF,X".data) then setMSB 54 else 54)) ∧
    Nat.testBit (if isIndexedOperand ("BUF,X".data) then setMSB 54 else 54) 15 =
      isIndexedOperand ("BUF,X".data) :=
  claim1_indexed_bit [("BUF".data, 54)] ("0".data) ("BUF,X".data) 54
    (by decide) (by decide) (by decide) (by decide) (by decide) (by decide) (by decide)

/-- C6, amended: for a non-directive opcode the stripped operand is
encoded as a base-16 literal — independently of the symbol table — iff it
satisfies isHexSymbol, i.e. iff its first character is any decimal digit
(not just the digit 0, see the counterexample) and the whole operand has
hex format; an operand failing that predicate is resolved through the
symbol table. -/
theorem claim6_hex_dispatch :
    (∀ (tbl : List (List Char × Nat)) (opcode operand : List Char) (v : Nat),
      ¬ opcode = "RESB".data → ¬ opcode = "RESW".data →
      ¬ opcode = "BYTE".data → ¬ opcode = "WORD".data →
      isHexSymbol (stripIndexed operand) = true →
      stringToInt (stripIndexed operand) 16 = some v →
      createObjectCode tbl opcode operand =
        padLeft 2 '0' opcode ++ padLeft 4 '0' (natToHex v)) ∧
    (∀ (tbl : List (List Char × Nat)) (opcode operand : List Char) (a : Nat),
      ¬ opcode = "RESB".data → ¬ opcode = "RESW".data →
      ¬ opcode = "BYTE".data → ¬ opcode = "WORD".data →
      isHexSymbol (stripIndexed operand) = false →
      List.lookup (stripIndexed operand) tbl = some a →
      createObjectCode tbl opcode operand =
        padLeft 2 '0' opcode ++
          padLeft 4 '0' (natToHex (if isIndexedOperand operand then setMSB a else a))) :=
  ⟨fun tbl opcode operand v hR hW hB hWo hhex hparse =>
    createObjectCode_hex tbl opcode operand v hR hW hB hWo hhex hparse,
   fun tbl opcode operand a hR hW hB hWo hhex hfind =>
    createObjectCode_symbol tbl opcode operand a hR hW hB hWo hhex hfind⟩

/-- Witness for claim6_hex_dispatch: operand "1F" is hex-dispatched even
with "1F" present in the table, and operand "BUF" is table-dispatched. -/
theorem claim6_hex_dispatch_witness :
    createObjectCode [("1F".data, 5)] ("18".data) ("1F".data) =
      padLeft 2 '0' ("18".data) ++ padLeft 4 '0' (natToHex 31) ∧
    createObjectCode [("BUF".data, 54)] ("18".data) ("BUF".data) =
      padLeft 2 '0' ("18".data) ++
        padLeft 4 '0'
          (natToHex (if isIndexedOperand ("BUF".data) then setMSB 54 else 54)) :=
  ⟨claim6_hex_dispatch.1 [("1F".data, 5)] ("18".data) ("1F".data) 31
      (by decide) (by decide) (by decide) (by decide) (by decide) (by decide),
   claim6_hex_dispatch.2 [("BUF".data, 54)] ("18".data) ("BUF".data) 54
      (by decide) (by decide) (by decide) (by decide) (by decide) (by decide)⟩

/-! ## BYTE C object-code length -/

/-- One character of a BYTE C operand prints as exactly two hex digits
when its value lies in [16, 127]. -/
theorem charIntHex_length (c : Char) (h1 : 16 ≤ c.toNat) (h2 : c.toNat < 128) :
    (charIntHex c).length = 2 := by
  have key : ∀ n, n < 128 → 16 ≤ n → (natToHex n).length = 2 := by decide
  rw [charIntHex, if_pos h2]
  exact key c.toNat h2 h1

/-- A BYTE operand (ending in a quote) is never an indexed operand. -/
theorem byteC_not_indexed (content : List Char) :
    isIndexedOperand ('C' :: quoteChar :: (content ++ [quoteChar])) = false := by
  rw [isIndexedOperand]
  have hlen : ('C' :: quoteChar :: (content ++ [quoteChar])).length = content.length + 3 := by
    simp
  have hget : ('C' :: quoteChar :: (content ++ [quoteChar])).getD
      (('C' :: quoteChar :: (content ++ [quoteChar])).length - 1) nulChar = quoteChar := by
    rw [hlen]
    show ('C' :: quoteChar :: (content ++ [quoteChar])).getD (content.length + 2) nulChar = quoteChar
    rw [List.getD_cons_succ, List.getD_cons_succ,
      List.getD_append_right content [quoteChar] nulChar content.length (Nat.le_refl _)]
    simp [List.getD]
  simp only [hget]
  have : (quoteChar == 'X') = false := by decide
  simp [this]

/-- getByteOperand on a well-formed C operand returns exactly the content
between the quotes. -/
theorem getByteOperand_byteC (content : List Char) :
    getByteOperand ('C' :: quoteChar :: (content ++ [quoteChar])) = content := by
  cases content with
  | nil => decide
  | cons c t =>
    rw [getByteOperand]
    rw [if_pos (by simp)]
    simp only [List.length_cons, List.length_append]
    show (((c :: t) ++ [quoteChar])).take ((c :: t).length + 1 + 2 - 3) = c :: t
    have : (c :: t).length + 1 + 2 - 3 = (c :: t).length := by omega
    rw [this, List.take_left]

/-- The concatenated hex renderings of the content characters have length
exactly 2 per character when every value lies in [16, 127]. -/
theorem flatMap_charIntHex_length (content : List Char)
    (h : ∀ c ∈ content, 16 ≤ c.toNat ∧ c.toNat < 128) :
    (content.flatMap charIntHex).length = 2 * content.length := by
  induction content with
  | nil => rfl
  | cons c t ih =>
    have hc := h c (List.mem_cons_self c t)
    have ht := fun x hx => h x (List.mem_cons_of_mem c hx)
    simp only [List.flatMap_cons, List.length_append, List.length_cons, ih ht,
      charIntHex_length c hc.1 hc.2]
    omega

/-- C5, amended: for a BYTE C operand the synthesized object code has
exactly 2 hex digits per character provided every character value lies in
[0x10, 0x7F]; outside that range the claim fails (a control character
prints as one digit, a byte at or above 0x80 as eight — see the
counterexample). -/
theorem claim5_byte_c_length (tbl : List (List Char × Nat)) (content : List Char)
    (h : ∀ c ∈ content, 16 ≤ c.toNat ∧ c.toNat < 128) :
    (createObjectCode tbl ("BYTE".data)
        ('C' :: quoteChar :: (content ++ [quoteChar]))).length = 2 * content.length := by
  simp only [createObjectCode, stripIndexed, byteC_not_indexed content, Bool.false_eq_true,
    if_false, if_neg (by decide : ¬ ("BYTE".data = "RESB".data ∨ "BYTE".data = "RESW".data)),
    if_pos rfl, getByteOperand_byteC content, List.getD_cons_zero]
  rw [if_pos (by decide : ('C' == 'C') = true)]
  exact flatMap_charIntHex_length content h

/-- Witness for claim5_byte_c_length: BYTE C operand with content "AB"
(spec scenario 3) gives 4 hex characters. -/
theorem claim5_byte_c_length_witness :
    (createObjectCode [] ("BYTE".data)
        ('C' :: quoteChar :: ("AB".data ++ [quoteChar]))).length = 2 * ("AB".data).length :=
  claim5_byte_c_length [] ("AB".data) (by decide)

/-! ## Location-counter monotonicity -/

/-- The END branch leaves the location counter unchanged. -/
theorem p1End_locctr (st : P1State) (up operand e1 : List Char) :
    (p1End st up operand e1).locctr = st.locctr := by
  cases operand <;> rfl

/-- The general branch advances the location counter by the dispatch
increment (a natural number). -/
theorem p1General_locctr (st : P1State) (up label opcode operand e1 : List Char) :
    (p1General st up label opcode operand e1).locctr =
      st.locctr + (p1Dispatch opcode operand).increment := rfl

/-- C9, amended: from any reachable pass-1 state (locctr is 0 until a
START is seen), a line whose opcode column is not START never decreases
the location counter — every increment is non-negative; only a START line
(in particular a second, misplaced one, see the counterexample) can move
it backwards. -/
theorem claim9_locctr (st : P1State) (line : List Char)
    (h : st.startFound = false → st.locctr = 0) :
    (getColumns line).2.1 = "START".data ∨ st.locctr ≤ (pass1Line st line).locctr := by
  rw [pass1Line.eq_def]
  split
  · exact Or.inr (Nat.le_refl _)
  · cases line with
    | nil => exact Or.inr (Nat.le_refl _)
    | cons c rest =>
      simp only
      split
      · exact Or.inr (Nat.le_refl _)
      · split
        · exact Or.inr (Nat.le_refl _)
        · split
          · rename_i hstart
            exact Or.inl hstart
          · right
            have hst1 : (if st.startFound then st
                else { st with locctr := 0, startingAddress := 0, startFound := true }).locctr
                = st.locctr := by
              by_cases hsf : st.startFound
              · rw [if_pos hsf]
              · rw [if_neg hsf]
                exact (h (by simp [hsf])).symm
            split
            · rw [p1End_locctr, hst1]
            · rw [p1General_locctr, hst1]
              exact Nat.le_add_right _ _

/-- Witness for claim9_locctr: a WORD line from the initial state keeps
the counter non-decreasing. -/
theorem claim9_locctr_witness :
    (getColumns (" WORD 5".data)).2.1 = "START".data ∨
      p1Init.locctr ≤ (pass1Line p1Init (" WORD 5".data)).locctr :=
  claim9_locctr p1Init (" WORD 5".data) (fun _ => rfl)

/-! ## Symbol-table contents after pass 1 -/

/-- An infix of a middle segment is an infix of the surrounding
concatenation. -/
theorem infix_extend {x m : List Char} (e1 e3 : List Char) (h : x <:+: m) :
    x <:+: (e1 ++ m ++ e3) := by
  rcases h with ⟨s, t, rfl⟩
  exact ⟨e1 ++ s, t ++ e3, by simp⟩

/-- Every entry of a post-label-step table was already present, or is the
new (label, locctr) pair: valid, or recorded together with error 0004. -/
theorem p1LabelStep_mem (t : List (List Char × Nat)) (label : List Char) (loc : Nat)
    (p : List Char × Nat) (hp : p ∈ (p1LabelStep t label loc).1) :
    p ∈ t ∨ (isValidSymbol p.1).1 = true ∨
      (p = (label, loc) ∧ "0004".data <:+: (p1LabelStep t label loc).2) := by
  by_cases he : label.isEmpty
  · rw [p1LabelStep, if_pos he] at hp
    exact Or.inl hp
  · cases hlk : List.lookup label t with
    | some v =>
      simp only [p1LabelStep, if_neg he, hlk] at hp
      exact Or.inl hp
    | none =>
      simp only [p1LabelStep, if_neg he, hlk] at hp ⊢
      rcases List.mem_append.mp hp with h | h
      · exact Or.inl h
      · have hpe : p = (label, loc) := List.mem_singleton.mp h
        by_cases hv : (isValidSymbol label).1 = true
        · exact Or.inr (Or.inl (by rw [hpe]; exact hv))
        · refine Or.inr (Or.inr ⟨hpe, ?_⟩)
          rw [symErrs, if_neg hv]
          exact ⟨(isValidSymbol label).2, [], by simp⟩

/-- The START branch never touches the symbol table and appends exactly
one block. -/
theorem p1Start_symtab (st : P1State) (up label operand : List Char) :
    (p1Start st up label operand).symtab = st.symtab ∧
      ∃ nb, (p1Start st up label operand).blocks = st.blocks ++ [nb] := by
  rw [p1Start]
  split
  · exact ⟨rfl, _, rfl⟩
  · exact ⟨rfl, _, rfl⟩

/-- The END branch never touches the symbol table and appends at most one
block. -/
theorem p1End_symtab (st : P1State) (up operand e1 : List Char) :
    (p1End st up operand e1).symtab = st.symtab ∧
      ((p1End st up operand e1).blocks = st.blocks ∨
        ∃ nb, (p1End st up operand e1).blocks = st.blocks ++ [nb]) := by
  cases operand with
  | nil => exact ⟨rfl, Or.inl rfl⟩
  | cons c rest => exact ⟨rfl, Or.inr ⟨_, rfl⟩⟩

/-- One pass-1 line preserves the amended symbol-table property: every
table entry is valid or has error 0004 recorded on some block. -/
theorem pass1Line_symtab_inv (st : P1State) (line : List Char)
    (ih : ∀ p ∈ st.symtab, (isValidSymbol p.1).1 = true ∨
      ∃ b ∈ st.blocks, "0004".data <:+: b.errorList) :
    ∀ p ∈ (pass1Line st line).symtab, (isValidSymbol p.1).1 = true ∨
      ∃ b ∈ (pass1Line st line).blocks, "0004".data <:+: b.errorList := by
  rw [pass1Line.eq_def]
  split
  · exact ih
  · cases line with
    | nil => exact ih
    | cons c rest =>
      simp only
      split
      · exact ih
      · split
        · exact ih
        · split
          · intro p hp
            obtain ⟨hsym, nb, hblk⟩ := p1Start_symtab st (listToUpper (c :: rest))
              (getColumns (c :: rest)).1 (getColumns (c :: rest)).2.2
            rw [hsym] at hp
            rcases ih p hp with h | ⟨b, hb, hinf⟩
            · exact Or.inl h
            · exact Or.inr ⟨b, by rw [hblk]; exact List.mem_append_left _ hb, hinf⟩
          · set st1 := (if st.startFound then st
              else { st with locctr := 0, startingAddress := 0, startFound := true }) with hst1
            have ih1 : ∀ p ∈ st1.symtab, (isValidSymbol p.1).1 = true ∨
                ∃ b ∈ st1.blocks, "0004".data <:+: b.errorList := by
              by_cases hsf : st.startFound
              · rw [hst1, if_pos hsf]; exact ih
              · rw [hst1, if_neg hsf]; exact ih
            split
            · intro p hp
              obtain ⟨hsym, hblk⟩ := p1End_symtab st1 (listToUpper (c :: rest))
                (getColumns (c :: rest)).2.2
                (p1OperandCheck (getColumns (c :: rest)).2.1 (getColumns (c :: rest)).2.2)
              rw [hsym] at hp
              rcases ih1 p hp with h | ⟨b, hb, hinf⟩
              · exact Or.inl h
              · rcases hblk with h2 | ⟨nb, h2⟩
                · exact Or.inr ⟨b, by rw [h2]; exact hb, hinf⟩
                · exact Or.inr ⟨b, by rw [h2]; exact List.mem_append_left _ hb, hinf⟩
            · intro p hp
              have hp2 : p ∈ (p1LabelStep st1.symtab (getColumns (c :: rest)).1 st1.locctr).1 := hp
              rcases p1LabelStep_mem st1.symtab (getColumns (c :: rest)).1 st1.locctr p hp2
                with h | h | ⟨hpe, hinf⟩
              · rcases ih1 p h with h3 | ⟨b, hb, hinf⟩
                · exact Or.inl h3
                · exact Or.inr ⟨b, List.mem_append_left _ hb, hinf⟩
              · exact Or.inl h
              · refine Or.inr ⟨_, List.mem_append_right _ (List.mem_singleton_self _), ?_⟩
                simp only
                exact infix_extend _ _ hinf

/-- C2, amended: after pass 1 on any source, every symbol-table entry
either satisfies the validity predicate, or error 0004 is recorded on some
intermediate block — invalid labels ARE inserted (see the
counterexample), so the claim's "never inserted" fails but the validation
always runs and flags the line. -/
theorem claim2_symtab (lines : List (List Char)) :
    ∀ p ∈ (pass1Run lines).symtab, (isValidSymbol p.1).1 = true ∨
      ∃ b ∈ (pass1Run lines).blocks, "0004".data <:+: b.errorList := by
  suffices h : ∀ st, (∀ p ∈ st.symtab, (isValidSymbol p.1).1 = true ∨
      ∃ b ∈ st.blocks, "0004".data <:+: b.errorList) →
      ∀ p ∈ (pass1From st lines).symtab, (isValidSymbol p.1).1 = true ∨
        ∃ b ∈ (pass1From st lines).blocks, "0004".data <:+: b.errorList by
    exact h p1Init (fun p hp => absurd hp (List.not_mem_nil p))
  induction lines with
  | nil => exact fun st h => h
  | cons l t ih => exact fun st h => ih (pass1Line st l) (pass1Line_symtab_inv st l h)

/-- Witness for claim2_symtab at the invalid-label source: the TOOLONG7
entry is covered by the 0004 disjunct. -/
theorem claim2_symtab_witness :
    (isValidSymbol (("TOOLONG7".data, (0 : Nat)).1)).1 = true ∨
      ∃ b ∈ (pass1Run c2Lines).blocks, "0004".data <:+: b.errorList :=
  claim2_symtab c2Lines ("TOOLONG7".data, 0) (by decide)

/-! ## BYTE directive error handling -/

/-- getConstantLength only ever appends one of the codes 0005-0009 (or
nothing). -/
theorem getConstantLength_errs (operand : List Char) :
    (getConstantLength operand).2 = [] ∨
      (getConstantLength operand).2 ∈
        [("0005".data), ("0006".data), ("0007".data), ("0008".data), ("0009".data)] := by
  rw [getConstantLength]
  repeat' split
  all_goals simp
  all_goals split_ifs <;> simp

/-- The BYTE dispatch on an operand getConstantLength rejects: increment
0, errors are the helper codes followed by 0001. -/
theorem p1Dispatch_byte_bad (operand : List Char)
    (hbad : (getConstantLength operand).1 = none) :
    p1Dispatch ("BYTE".data) operand =
      { errs := (getConstantLength operand).2 ++ "0001".data, increment := 0,
        opcodeStr := "BYTE".data, opFound := false } := by
  rw [p1Dispatch]
  rw [if_neg (by decide), if_neg (by decide), if_neg (by decide), if_pos rfl]
  rcases hq : getConstantLength operand with ⟨l, e⟩
  rw [hq] at hbad
  simp only at hbad
  subst hbad
  simp

/-- The pass-1 operand check is skipped for BYTE lines. -/
theorem p1OperandCheck_byte (operand : List Char) :
    p1OperandCheck ("BYTE".data) operand = [] := by
  rw [p1OperandCheck, if_pos (Or.inl rfl)]

/-- The general branch appends exactly one block, whose error list is the
operand-check codes, the label codes and the dispatch codes in order. -/
theorem p1General_blocks (st : P1State) (up label opcode operand e1 : List Char) :
    (p1General st up label opcode operand e1).blocks = st.blocks ++
      [{ srcLine := up, opcode := (p1Dispatch opcode operand).opcodeStr,
         address := if st.hexSet || (p1Dispatch opcode operand).opFound
           then natToHex st.locctr else natToDec st.locctr,
         operand := operand,
         errorList := e1 ++ (p1LabelStep st.symtab label st.locctr).2 ++
           (p1Dispatch opcode operand).errs }] := rfl

/-- C7, amended: a BYTE line whose operand getConstantLength rejects
leaves the location counter unchanged (increment 0) and emits an error
list ending in 0001, preceded by the helper code, which is one of
0005-0009 when present — but absent exactly for operands shorter than 4
characters or X-content with a non-hex digit, where only 0001 is
emitted (see the counterexample). -/
theorem claim7_byte_errors (st : P1State) (line : List Char)
    (hf : st.finished = false) (hc : st.crashed = false)
    (hne : line ≠ []) (hdot : line.headD nulChar ≠ '.')
    (hop : (getColumns line).2.1 = "BYTE".data)
    (hbad : (getConstantLength (getColumns line).2.2).1 = none) :
    (pass1Line st line).locctr = (if st.startFound then st.locctr else 0) ∧
    ∃ b, (pass1Line st line).blocks = st.blocks ++ [b] ∧
      "0001".data <:+ b.errorList ∧
      ((getConstantLength (getColumns line).2.2).2 ++ "0001".data) <:+ b.errorList ∧
      ((getConstantLength (getColumns line).2.2).2 = [] ∨
        (getConstantLength (getColumns line).2.2).2 ∈
          [("0005".data), ("0006".data), ("0007".data), ("0008".data), ("0009".data)]) := by
  rw [pass1Line.eq_def]
  rw [if_neg (by simp [hf, hc])]
  cases line with
  | nil => exact absurd rfl hne
  | cons c rest =>
    simp only
    have hdc : c ≠ '.' := by simpa using hdot
    rw [if_neg (by simpa using hdc)]
    rw [if_neg (by
      rw [hop]
      have h4 : ("BYTE".data).length = 4 := rfl
      omega)]
    rw [if_neg (by rw [hop]; decide)]
    rw [if_neg (by rw [hop]; decide)]
    rw [hop]
    by_cases hsf : st.startFound = true
    · rw [if_pos hsf, if_pos hsf]
      refine ⟨?_, _, rfl, ?_, ?_, getConstantLength_errs _⟩
      · rw [p1General_locctr, p1Dispatch_byte_bad _ hbad]
        simp
      · show ("0001".data) <:+
          (p1OperandCheck ("BYTE".data) (getColumns (c :: rest)).2.2 ++
            (p1LabelStep st.symtab (getColumns (c :: rest)).1 st.locctr).2 ++
            (p1Dispatch ("BYTE".data) (getColumns (c :: rest)).2.2).errs)
        rw [p1OperandCheck_byte, p1Dispatch_byte_bad _ hbad]
        exact ⟨[] ++ (p1LabelStep st.symtab (getColumns (c :: rest)).1 st.locctr).2 ++
          (getConstantLength (getColumns (c :: rest)).2.2).2, by simp⟩
      · show ((getConstantLength (getColumns (c :: rest)).2.2).2 ++ "0001".data) <:+
          (p1OperandCheck ("BYTE".data) (getColumns (c :: rest)).2.2 ++
            (p1LabelStep st.symtab (getColumns (c :: rest)).1 st.locctr).2 ++
            (p1Dispatch ("BYTE".data) (getColumns (c :: rest)).2.2).errs)
        rw [p1OperandCheck_byte, p1Dispatch_byte_bad _ hbad]
        exact ⟨[] ++ (p1LabelStep st.symtab (getColumns (c :: rest)).1 st.locctr).2, by simp⟩
    · rw [if_neg hsf, if_neg hsf]
      refine ⟨?_, _, rfl, ?_, ?_, getConstantLength_errs _⟩
      · rw [p1General_locctr, p1Dispatch_byte_bad _ hbad]
        simp
      · show ("0001".data) <:+
          (p1OperandCheck ("BYTE".data) (getColumns (c :: rest)).2.2 ++
            (p1LabelStep st.symtab (getColumns (c :: rest)).1 0).2 ++
            (p1Dispatch ("BYTE".data) (getColumns (c :: rest)).2.2).errs)
        rw [p1OperandCheck_byte, p1Dispatch_byte_bad _ hbad]
        exact ⟨[] ++ (p1LabelStep st.symtab (getColumns (c :: rest)).1 0).2 ++
          (getConstantLength (getColumns (c :: rest)).2.2).2, by simp⟩
      · show ((getConstantLength (getColumns (c :: rest)).2.2).2 ++ "0001".data) <:+
          (p1OperandCheck ("BYTE".data) (getColumns (c :: rest)).2.2 ++
            (p1LabelStep st.symtab (getColumns (c :: rest)).1 0).2 ++
            (p1Dispatch ("BYTE".data) (getColumns (c :: rest)).2.2).errs)
        rw [p1OperandCheck_byte, p1Dispatch_byte_bad _ hbad]
        exact ⟨[] ++ (p1LabelStep st.symtab (getColumns (c :: rest)).1 0).2, by simp⟩

/-! ## Program length and the oversized-program notice -/

/-- The START branch never sets the finished flag. -/
theorem p1Start_finished (st : P1State) (up label operand : List Char) :
    (p1Start st up label operand).finished = st.finished := by
  rw [p1Start]
  split <;> rfl

/-- The general branch never sets the finished flag. -/
theorem p1General_finished (st : P1State) (up label opcode operand e1 : List Char) :
    (p1General st up label opcode operand e1).finished = st.finished := rfl

/-- One pass-1 line preserves the program-length relation: once the pass
has finished (END reached), programLength = locctr - startingAddress. -/
theorem pass1Line_proglen (st : P1State) (line : List Char)
    (ih : st.finished = true →
      st.programLength = (st.locctr : Int) - (st.startingAddress : Int)) :
    (pass1Line st line).finished = true →
      (pass1Line st line).programLength =
        ((pass1Line st line).locctr : Int) - ((pass1Line st line).startingAddress : Int) := by
  rw [pass1Line.eq_def]
  split
  · exact ih
  · rename_i hfc
    simp only [Bool.or_eq_true, not_or, Bool.not_eq_true] at hfc
    obtain ⟨hf, hcr⟩ := hfc
    cases line with
    | nil => exact ih
    | cons c rest =>
      simp only
      split
      · exact ih
      · split
        · exact ih
        · split
          · intro hfin
            rw [p1Start_finished, hf] at hfin
            simp at hfin
          · split
            · by_cases hsf : st.startFound = true
              · rw [if_pos hsf]
                cases hoperand : (getColumns (c :: rest)).2.2 with
                | nil =>
                  intro hfin
                  simp [p1End, hf] at hfin
                | cons d tail =>
                  intro _
                  rfl
              · rw [if_neg hsf]
                cases hoperand : (getColumns (c :: rest)).2.2 with
                | nil =>
                  intro hfin
                  simp [p1End, hf] at hfin
                | cons d tail =>
                  intro _
                  rfl
            · intro hfin
              by_cases hsf : st.startFound = true
              · rw [if_pos hsf] at hfin
                rw [p1General_finished, hf] at hfin
                simp at hfin
              · rw [if_neg hsf] at hfin
                simp [p1General_finished, hf] at hfin

/-- The START branch of pass 2 appends only ordinary rows to the
listing. -/
theorem p2StartBlock_notice (env : Env) (st : P2State) (b : Block) (n : Nat)
    (h : ListingEntry.oversizedNotice n ∈ (p2StartBlock env st b).listing) :
    ListingEntry.oversizedNotice n ∈ st.listing := by
  rw [p2StartBlock] at h
  split at h <;> simp_all

/-- The default-header step never writes to the listing. -/
theorem p2DefaultHeader_listing (env : Env) (st : P2State) (b : Block) :
    (p2DefaultHeader env st b).listing = st.listing := by
  rw [p2DefaultHeader]
  split <;> rfl

/-- The END branch of pass 2 appends only ordinary rows to the listing. -/
theorem p2EndBlock_notice (env : Env) (st : P2State) (b : Block) (n : Nat)
    (h : ListingEntry.oversizedNotice n ∈ (p2EndBlock env st b).listing) :
    ListingEntry.oversizedNotice n ∈ st.listing := by
  rw [p2EndBlock] at h
  split at h <;> simp_all

/-- The ordinary-block branch of pass 2 appends only ordinary rows to the
listing. -/
theorem p2CodeBlock_notice (env : Env) (st : P2State) (b : Block) (n : Nat)
    (h : ListingEntry.oversizedNotice n ∈ (p2CodeBlock env st b).listing) :
    ListingEntry.oversizedNotice n ∈ st.listing := by
  rw [p2CodeBlock] at h
  simp only [p2Append, p2FlushIfNeeded, p2OpenPending] at h
  split_ifs at h <;> simp_all

/-- The pass-2 loop body never emits the oversized notice. -/
theorem pass2Step_no_notice (env : Env) (st : P2State) (b : Block) (n : Nat)
    (h : ListingEntry.oversizedNotice n ∈ (pass2Step env st b).listing) :
    ListingEntry.oversizedNotice n ∈ st.listing := by
  rw [pass2Step] at h
  split at h
  · exact p2StartBlock_notice env (p2MarkErrors st b) b n h
  · split at h
    · have h2 := p2EndBlock_notice env (p2DefaultHeader env (p2MarkErrors st b) b) b n h
      rw [p2DefaultHeader_listing] at h2
      exact h2
    · have h2 := p2CodeBlock_notice env (p2DefaultHeader env (p2MarkErrors st b) b) b n h
      rw [p2DefaultHeader_listing] at h2
      exact h2

/-- The whole pass-2 loop never emits the oversized notice. -/
theorem pass2Loop_no_notice (env : Env) (blocks : List Block) (st : P2State) (n : Nat)
    (h : ListingEntry.oversizedNotice n ∈ (pass2Loop env st blocks).listing) :
    ListingEntry.oversizedNotice n ∈ st.listing := by
  induction blocks generalizing st with
  | nil => exact h
  | cons b rest ih =>
    rw [pass2Loop] at h
    split at h
    · exact pass2Step_no_notice env st b n h
    · exact pass2Step_no_notice env st b n (ih (pass2Step env st b) h)

/-- The pass-2 epilogue emits the oversized notice iff the pass-1 location
counter exceeds MSIZE. -/
theorem pass2Post_oversized (env : Env) (st : P2State)
    (hn : ∀ n, ListingEntry.oversizedNotice n ∉ st.listing) :
    (∃ n, ListingEntry.oversizedNotice n ∈ (pass2Post env st).final.listing) ↔
      env.locctr > MSIZE := by
  rw [pass2Post]
  constructor
  · rintro ⟨n, hmem⟩
    by_cases hov : env.locctr > MSIZE
    · exact hov
    · rw [if_neg hov] at hmem
      split at hmem <;> simp_all
  · intro hov
    rw [if_pos hov]
    refine ⟨env.locctr, ?_⟩
    split <;> simp

/-- The final anyErrors flag is the loop flag, or-ed with the oversize and
missing-END conditions, and the object file survives iff it is false. -/
theorem pass2Post_anyErrors (env : Env) (st : P2State) :
    (pass2Post env st).final.anyErrors =
      (st.anyErrors || decide (env.locctr > MSIZE) || !st.endFound) ∧
    (pass2Post env st).objectFileExists = !(pass2Post env st).final.anyErrors := by
  rw [pass2Post]
  split_ifs with h1 h2 h3 <;> simp_all

/-- C3, amended: program length is LOCCTR at END minus the starting
address, but the fatal notice is emitted (and anyErrors set) iff the final
LOCCTR exceeds MSIZE — not iff the program length does; a short program at
a high START address is reported oversized (see the counterexample). -/
theorem claim3_oversized (lines : List (List Char)) :
    ((pass1Run lines).finished = true →
      (pass1Run lines).programLength =
        ((pass1Run lines).locctr : Int) - ((pass1Run lines).startingAddress : Int)) ∧
    ((∃ n, ListingEntry.oversizedNotice n ∈ (assemble lines).final.listing) ↔
      (pass1Run lines).locctr > MSIZE) ∧
    ((pass1Run lines).locctr > MSIZE → (assemble lines).final.anyErrors = true) := by
  refine ⟨?_, ?_, ?_⟩
  · suffices h : ∀ st : P1State,
        (st.finished = true → st.programLength = (st.locctr : Int) - (st.startingAddress : Int)) →
        ((pass1From st lines).finished = true →
          (pass1From st lines).programLength =
            ((pass1From st lines).locctr : Int) - ((pass1From st lines).startingAddress : Int)) by
      exact h p1Init (by intro hfin; simp [p1Init] at hfin)
    induction lines with
    | nil => exact fun st h => h
    | cons l t ih => exact fun st h => ih (pass1Line st l) (pass1Line_proglen st l h)
  · have hn : ∀ n, ListingEntry.oversizedNotice n ∉
        (pass2Loop (envOf (pass1Run lines)) (p2Init (pass1Run lines).anyErrors)
          (pass1Run lines).blocks).listing := by
      intro n hmem
      have h2 := pass2Loop_no_notice (envOf (pass1Run lines)) (pass1Run lines).blocks
        (p2Init (pass1Run lines).anyErrors) n hmem
      simp [p2Init] at h2
    exact pass2Post_oversized (envOf (pass1Run lines)) _ hn
  · intro hov
    have h := (pass2Post_anyErrors (envOf (pass1Run lines))
      (pass2Loop (envOf (pass1Run lines)) (p2Init (pass1Run lines).anyErrors)
        (pass1Run lines).blocks)).1
    have hgoal : (assemble lines).final.anyErrors =
        ((pass2Loop (envOf (pass1Run lines)) (p2Init (pass1Run lines).anyErrors)
          (pass1Run lines).blocks).anyErrors ||
          decide ((envOf (pass1Run lines)).locctr > MSIZE) ||
          !(pass2Loop (envOf (pass1Run lines)) (p2Init (pass1Run lines).anyErrors)
            (pass1Run lines).blocks).endFound) := h
    rw [hgoal]
    have hd : decide ((envOf (pass1Run lines)).locctr > MSIZE) = true := by
      simp only [envOf]
      exact decide_eq_true hov
    rw [hd]
    simp

/-- Witness for claim3_oversized at the high-START short program: the
length relation holds with END found, and the notice appears because the
final LOCCTR is 32769. -/
theorem claim3_oversized_witness :
    (pass1Run c3Lines).programLength =
      ((pass1Run c3Lines).locctr : Int) - ((pass1Run c3Lines).startingAddress : Int) ∧
    ((∃ n, ListingEntry.oversizedNotice n ∈ (assemble c3Lines).final.listing) ↔
      (pass1Run c3Lines).locctr > MSIZE) ∧
    (assemble c3Lines).final.anyErrors = true :=
  ⟨(claim3_oversized c3Lines).1 (by decide),
   (claim3_oversized c3Lines).2.1,
   (claim3_oversized c3Lines).2.2 (by decide)⟩

/-! ## Text-record capacity -/

/-- Appending to the buffer never writes to the object file. -/
theorem p2Append_objectFile (st : P2State) (oc : List Char) :
    (p2Append st oc).objectFile = st.objectFile := by
  rw [p2Append]
  split <;> rfl

/-- Transitivity of the new-pieces-are-capped relation. -/
theorem pieces_trans {A B C : List ObjPiece}
    (h1 : ∀ p ∈ B, p ∈ A ∨ recEndCapped p) (h2 : ∀ p ∈ C, p ∈ B ∨ recEndCapped p) :
    ∀ p ∈ C, p ∈ A ∨ recEndCapped p :=
  fun p hp => (h2 p hp).elim (fun hb => h1 p hb) Or.inr

/-- After flush-then-append the buffer never exceeds 60 characters, as
long as the appended object code itself fits in 60. -/
theorem p2FlushAppend_buffer (st : P2State) (oc addr : List Char)
    (hoc : oc.length ≤ 60) :
    (p2Append (p2FlushIfNeeded st oc addr) oc).buffer.length ≤ 60 := by
  rw [p2FlushIfNeeded, p2Append.eq_def]
  split_ifs <;> simp_all
  all_goals omega

/-- Every record the flush emits carries the pre-flush buffer, hence at
most 60 characters. -/
theorem p2FlushIfNeeded_pieces (st : P2State) (oc addr : List Char)
    (hbuf : st.buffer.length ≤ 60) :
    ∀ p ∈ (p2FlushIfNeeded st oc addr).objectFile,
      p ∈ st.objectFile ∨ recEndCapped p := by
  intro p hp
  rw [p2FlushIfNeeded] at hp
  split_ifs at hp <;> simp_all [finishTextRecord, startTextRecord]
  · rcases hp with hp | hp | hp
    · exact Or.inl hp
    · refine Or.inr ?_
      intro sz code he
      rw [hp] at he
      cases he
      simp [listToUpper]
      omega
    · refine Or.inr ?_
      intro sz code he
      rw [hp] at he
      cases he
  · rcases hp with hp | hp
    · exact Or.inl hp
    · refine Or.inr ?_
      intro sz code he
      rw [hp] at he
      cases he
      simp [listToUpper]
      omega

/-- The START branch leaves the buffer alone and emits no record-closing
piece. -/
theorem p2StartBlock_cap (env : Env) (st : P2State) (b : Block) :
    (p2StartBlock env st b).buffer = st.buffer ∧
    ∀ p ∈ (p2StartBlock env st b).objectFile, p ∈ st.objectFile ∨ recEndCapped p := by
  rw [p2StartBlock]
  split_ifs <;> constructor <;> try rfl
  · intro p hp
    simp [createHeaderRecord, startTextRecord] at hp
    rcases hp with hp | hp | hp
    · exact Or.inl hp
    · exact Or.inr (fun sz code he => by rw [hp] at he; cases he)
    · exact Or.inr (fun sz code he => by rw [hp] at he; cases he)
  · intro p hp
    exact Or.inl hp

/-- The default header leaves the buffer alone and emits no
record-closing piece. -/
theorem p2DefaultHeader_cap (env : Env) (st : P2State) (b : Block) :
    (p2DefaultHeader env st b).buffer = st.buffer ∧
    ∀ p ∈ (p2DefaultHeader env st b).objectFile, p ∈ st.objectFile ∨ recEndCapped p := by
  rw [p2DefaultHeader]
  split_ifs <;> constructor <;> try rfl
  · intro p hp
    simp [createHeaderRecord, startTextRecord] at hp
    rcases hp with hp | hp | hp
    · exact Or.inl hp
    · exact Or.inr (fun sz code he => by rw [hp] at he; cases he)
    · exact Or.inr (fun sz code he => by rw [hp] at he; cases he)
  · intro p hp
    exact Or.inl hp

/-- The END branch flushes the (capped) buffer and emits the E record. -/
theorem p2EndBlock_cap (env : Env) (st : P2State) (b : Block)
    (hbuf : st.buffer.length ≤ 60) :
    (p2EndBlock env st b).buffer = st.buffer ∧
    ∀ p ∈ (p2EndBlock env st b).objectFile, p ∈ st.objectFile ∨ recEndCapped p := by
  rw [p2EndBlock]
  split_ifs <;> constructor <;> try rfl
  · intro p hp
    simp [finishTextRecord, createEndRecord] at hp
    rcases hp with hp | hp | hp
    · exact Or.inl hp
    · refine Or.inr (fun sz code he => ?_)
      rw [hp] at he
      cases he
      simp [listToUpper]
      omega
    · exact Or.inr (fun sz code he => by rw [hp] at he; cases he)
  · intro p hp
    simp [createEndRecord] at hp
    rcases hp with hp | hp
    · exact Or.inl hp
    · exact Or.inr (fun sz code he => by rw [hp] at he; cases he)

/-- The deferred record opening leaves the buffer alone and emits no
record-closing piece. -/
theorem p2OpenPending_cap (st : P2State) (oc addr : List Char) :
    (p2OpenPending st oc addr).buffer = st.buffer ∧
    ∀ p ∈ (p2OpenPending st oc addr).objectFile, p ∈ st.objectFile ∨ recEndCapped p := by
  rw [p2OpenPending]
  split_ifs <;> constructor <;> try rfl
  · intro p hp
    simp [startTextRecord] at hp
    rcases hp with hp | hp
    · exact Or.inl hp
    · exact Or.inr (fun sz code he => by rw [hp] at he; cases he)
  · intro p hp
    exact Or.inl hp

/-- One pass-2 step keeps the buffer within 60 characters and only emits
record sections within 60 characters, provided the object code of the
block itself fits. -/
theorem pass2Step_cap (env : Env) (st : P2State) (b : Block)
    (hbuf : st.buffer.length ≤ 60)
    (hcode : b.errorList = [] →
      (createObjectCode env.symtab b.opcode b.operand).length ≤ 60) :
    (pass2Step env st b).buffer.length ≤ 60 ∧
    ∀ p ∈ (pass2Step env st b).objectFile, p ∈ st.objectFile ∨ recEndCapped p := by
  rw [pass2Step]
  have hm0 : (p2MarkErrors st b).buffer = st.buffer := rfl
  have hm1 : (p2MarkErrors st b).objectFile = st.objectFile := rfl
  split
  · obtain ⟨hb, hpieces⟩ := p2StartBlock_cap env (p2MarkErrors st b) b
    rw [hb, hm0]
    refine ⟨hbuf, ?_⟩
    rw [hm1] at hpieces
    exact hpieces
  · obtain ⟨hdb, hdp⟩ := p2DefaultHeader_cap env (p2MarkErrors st b) b
    rw [hm1] at hdp
    have hdbuf : (p2DefaultHeader env (p2MarkErrors st b) b).buffer.length ≤ 60 := by
      rw [hdb, hm0]
      exact hbuf
    split
    · obtain ⟨hb, hpieces⟩ := p2EndBlock_cap env (p2DefaultHeader env (p2MarkErrors st b) b) b hdbuf
      rw [hb]
      refine ⟨by rw [hdb, hm0]; exact hbuf, ?_⟩
      exact pieces_trans hdp hpieces
    · rw [p2CodeBlock]
      have hoc : (if b.errorList.isEmpty then createObjectCode env.symtab b.opcode b.operand
          else "------".data).length ≤ 60 := by
        by_cases he : b.errorList.isEmpty
        · rw [if_pos he]
          exact hcode (List.isEmpty_iff.mp he)
        · rw [if_neg he]
          decide
      constructor
      · exact p2FlushAppend_buffer _ _ _ hoc
      · set stL := { p2DefaultHeader env (p2MarkErrors st b) b with
          listing := (p2DefaultHeader env (p2MarkErrors st b) b).listing ++
            [ListingEntry.row b.address
              (if b.errorList.isEmpty then createObjectCode env.symtab b.opcode b.operand
                else "------".data) b.srcLine b.errorList] } with hstL
        have hLp : ∀ p ∈ stL.objectFile, p ∈ st.objectFile ∨ recEndCapped p := hdp
        obtain ⟨hob, hop⟩ := p2OpenPending_cap stL
          (if b.errorList.isEmpty then createObjectCode env.symtab b.opcode b.operand
            else "------".data) b.address
        have hobuf : (p2OpenPending stL
            (if b.errorList.isEmpty then createObjectCode env.symtab b.opcode b.operand
              else "------".data) b.address).buffer.length ≤ 60 := by
          rw [hob]
          show (p2DefaultHeader env (p2MarkErrors st b) b).buffer.length ≤ 60
          exact hdbuf
        have hfp := p2FlushIfNeeded_pieces (p2OpenPending stL
            (if b.errorList.isEmpty then createObjectCode env.symtab b.opcode b.operand
              else "------".data) b.address)
          (if b.errorList.isEmpty then createObjectCode env.symtab b.opcode b.operand
            else "------".data) b.address hobuf
        rw [p2Append_objectFile]
        exact pieces_trans (pieces_trans hLp hop) hfp


/-- The pass-2 loop invariant: every emitted record section stays within
60 hex characters as long as each single object code does. -/
theorem pass2Loop_cap (env : Env) (blocks : List Block) (st : P2State)
    (hbuf : st.buffer.length ≤ 60)
    (hrec : ∀ p ∈ st.objectFile, recEndCapped p)
    (hcode : ∀ b ∈ blocks, b.errorList = [] →
      (createObjectCode env.symtab b.opcode b.operand).length ≤ 60) :
    ∀ p ∈ (pass2Loop env st blocks).objectFile, recEndCapped p := by
  induction blocks generalizing st with
  | nil => exact hrec
  | cons b rest ih =>
    rw [pass2Loop]
    obtain ⟨hsb, hsp⟩ := pass2Step_cap env st b hbuf (hcode b (List.mem_cons_self b rest))
    have hrec2 : ∀ p ∈ (pass2Step env st b).objectFile, recEndCapped p :=
      fun p hp => (hsp p hp).elim (fun h => hrec p h) id
    split
    · exact hrec2
    · exact ih (pass2Step env st b) hsb hrec2
        (fun b2 hb2 => hcode b2 (List.mem_cons_of_mem b hb2))

/-- C4, amended: every text record machine-code section is at most 60 hex
characters provided each line object code is itself at most 60 (which a
BYTE C line with sign-extending bytes violates, see the counterexample);
and an error-free reserve directive with a pending non-empty buffer
flushes it into a record, clears the buffer and defers the next record
opening. -/
theorem claim4_record_cap :
    (∀ (env : Env) (st : P2State) (blocks : List Block),
      st.buffer.length ≤ 60 →
      (∀ p ∈ st.objectFile, recEndCapped p) →
      (∀ b ∈ blocks, b.errorList = [] →
        (createObjectCode env.symtab b.opcode b.operand).length ≤ 60) →
      ∀ p ∈ (pass2Loop env st blocks).objectFile, recEndCapped p) ∧
    (∀ (env : Env) (st : P2State) (b : Block),
      st.startSet = true → st.buffer ≠ [] →
      (b.opcode = "RESB".data ∨ b.opcode = "RESW".data) → b.errorList = [] →
      (pass2Step env st b).objectFile = st.objectFile ++ [finishTextRecord st.buffer] ∧
      (pass2Step env st b).buffer = [] ∧
      (pass2Step env st b).makeNewTextRec = true) := by
  constructor
  · exact fun env st blocks hbuf hrec hcode => pass2Loop_cap env blocks st hbuf hrec hcode
  · intro env st b hss hbne hop herr
    have hns : ¬ b.opcode = "START".data := by
      rcases hop with h | h <;> rw [h] <;> decide
    have hnd : ¬ b.opcode = "END".data := by
      rcases hop with h | h <;> rw [h] <;> decide
    have hoc : createObjectCode env.symtab b.opcode b.operand = [] := by
      rcases hop with h | h <;> rw [h, createObjectCode]
      · rw [if_pos (Or.inl rfl)]
      · rw [if_pos (Or.inr rfl)]
    have hbl : st.buffer.length ≠ 0 := by
      simpa [List.length_eq_zero] using hbne
    rw [pass2Step]
    rw [if_neg hns, if_neg hnd]
    have hmd : p2DefaultHeader env (p2MarkErrors st b) b = p2MarkErrors st b := by
      rw [p2DefaultHeader]
      rw [if_neg (by simp [p2MarkErrors, hss])]
    rw [hmd, p2CodeBlock]
    simp [herr, hoc, p2OpenPending, p2FlushIfNeeded, p2Append, p2MarkErrors, hbl,
      finishTextRecord]


/-- Witness for claim4_record_cap: the record of the valid one-instruction
program is capped, and a concrete RESB block flushes a pending buffer. -/
theorem claim4_record_cap_witness :
    (("000001".data).length ≤ 60) ∧
    ((pass2Step { symtab := [], programLength := 0, startingAddress := 0, locctr := 0 }
        { buffer := "000001".data, startSet := true, endFound := false,
          makeNewTextRec := false, anyErrors := false, objectFile := [], listing := [] }
        { srcLine := (" RESB 1".data), opcode := ("RESB".data), address := ("3".data),
          operand := ("1".data), errorList := [] }).objectFile =
      [] ++ [finishTextRecord ("000001".data)]) :=
  ⟨claim4_record_cap.1 (envOf (pass1Run c8Lines)) (p2Init false) (pass1Run c8Lines).blocks
      (by decide) (by simp [p2Init]) (by decide)
      (ObjPiece.recEnd ("03".data) ("000001".data)) (by decide)
      ("03".data) ("000001".data) rfl,
   (claim4_record_cap.2 { symtab := [], programLength := 0, startingAddress := 0, locctr := 0 }
      { buffer := "000001".data, startSet := true, endFound := false,
        makeNewTextRec := false, anyErrors := false, objectFile := [], listing := [] }
      { srcLine := (" RESB 1".data), opcode := ("RESB".data), address := ("3".data),
        operand := ("1".data), errorList := [] }
      rfl (by decide) (Or.inl rfl) rfl).1⟩


/-- Witness for claim7_byte_errors at the X-with-non-hex-digit line. -/
theorem claim7_byte_errors_witness :
    (pass1Line p1Init c7Line).locctr = (if p1Init.startFound then p1Init.locctr else 0) ∧
    ∃ b, (pass1Line p1Init c7Line).blocks = p1Init.blocks ++ [b] ∧
      "0001".data <:+ b.errorList ∧
      ((getConstantLength (getColumns c7Line).2.2).2 ++ "0001".data) <:+ b.errorList ∧
      ((getConstantLength (getColumns c7Line).2.2).2 = [] ∨
        (getConstantLength (getColumns c7Line).2.2).2 ∈
          [("0005".data), ("0006".data), ("0007".data), ("0008".data), ("0009".data)]) :=
  claim7_byte_errors p1Init c7Line rfl rfl (by decide) (by decide) (by decide) (by decide)

/-! ## Object-file existence after pass 2 -/

/-- The deferred record opening touches neither the error flag, the
endFound flag nor startSet. -/
theorem p2OpenPending_pres (st : P2State) (oc addr : List Char) :
    (p2OpenPending st oc addr).anyErrors = st.anyErrors ∧
    (p2OpenPending st oc addr).endFound = st.endFound ∧
    (p2OpenPending st oc addr).startSet = st.startSet := by
  rw [p2OpenPending]
  split_ifs <;> exact ⟨rfl, rfl, rfl⟩

/-- The flush touches neither the error flag, the endFound flag nor
startSet. -/
theorem p2FlushIfNeeded_pres (st : P2State) (oc addr : List Char) :
    (p2FlushIfNeeded st oc addr).anyErrors = st.anyErrors ∧
    (p2FlushIfNeeded st oc addr).endFound = st.endFound ∧
    (p2FlushIfNeeded st oc addr).startSet = st.startSet := by
  rw [p2FlushIfNeeded]
  split_ifs <;> exact ⟨rfl, rfl, rfl⟩

/-- The buffer append touches neither the error flag, the endFound flag
nor startSet. -/
theorem p2Append_pres (st : P2State) (oc : List Char) :
    (p2Append st oc).anyErrors = st.anyErrors ∧
    (p2Append st oc).endFound = st.endFound ∧
    (p2Append st oc).startSet = st.startSet := by
  rw [p2Append]
  split_ifs <;> exact ⟨rfl, rfl, rfl⟩

/-- An ordinary block leaves the error and endFound flags unchanged. -/
theorem p2CodeBlock_pres (env : Env) (st : P2State) (b : Block) :
    (p2CodeBlock env st b).anyErrors = st.anyErrors ∧
    (p2CodeBlock env st b).endFound = st.endFound := by
  simp only [p2CodeBlock]
  rw [(p2Append_pres _ _).1, (p2FlushIfNeeded_pres _ _ _).1, (p2OpenPending_pres _ _ _).1,
    (p2Append_pres _ _).2.1, (p2FlushIfNeeded_pres _ _ _).2.1, (p2OpenPending_pres _ _ _).2.1]
  exact ⟨rfl, rfl⟩

/-- The default header leaves the error flag, endFound and the buffer
unchanged. -/
theorem p2DefaultHeader_pres (env : Env) (st : P2State) (b : Block) :
    (p2DefaultHeader env st b).anyErrors = st.anyErrors ∧
    (p2DefaultHeader env st b).endFound = st.endFound ∧
    (p2DefaultHeader env st b).buffer = st.buffer := by
  rw [p2DefaultHeader]
  split_ifs <;> exact ⟨rfl, rfl, rfl⟩

/-- A START block leaves the error and endFound flags unchanged. -/
theorem p2StartBlock_pres (env : Env) (st : P2State) (b : Block) :
    (p2StartBlock env st b).anyErrors = st.anyErrors ∧
    (p2StartBlock env st b).endFound = st.endFound := by
  rw [p2StartBlock]
  split_ifs <;> exact ⟨rfl, rfl⟩

/-- An END block leaves the error flag unchanged and sets endFound. -/
theorem p2EndBlock_pres (env : Env) (st : P2State) (b : Block) :
    (p2EndBlock env st b).anyErrors = st.anyErrors ∧
    (p2EndBlock env st b).endFound = true := by
  rw [p2EndBlock.eq_def]
  split_ifs <;> exact ⟨rfl, rfl⟩

/-- One pass-2 step ors the error flag with the emptiness of the block
error list, exactly as the source loop head does. -/
theorem pass2Step_anyErrors (env : Env) (st : P2State) (b : Block) :
    (pass2Step env st b).anyErrors = (st.anyErrors || !b.errorList.isEmpty) := by
  rw [pass2Step]
  split
  · rw [(p2StartBlock_pres env _ b).1]
    rfl
  · split
    · rw [(p2EndBlock_pres env _ b).1, (p2DefaultHeader_pres env _ b).1]
      rfl
    · rw [(p2CodeBlock_pres env _ b).1, (p2DefaultHeader_pres env _ b).1]
      rfl

/-- One pass-2 step sets endFound exactly for an END block. -/
theorem pass2Step_endFound (env : Env) (st : P2State) (b : Block) :
    (pass2Step env st b).endFound =
      (st.endFound || decide (b.opcode = "END".data)) := by
  rw [pass2Step]
  split
  · rename_i hstart
    have hne : decide (b.opcode = "END".data) = false := by
      rw [hstart]
      decide
    rw [hne, Bool.or_false, (p2StartBlock_pres env _ b).2]
    rfl
  · split
    · rename_i hend
      rw [(p2EndBlock_pres env _ b).2]
      simp [hend]
    · rename_i hnend
      have hne : decide (b.opcode = "END".data) = false := by
        simpa using hnend
      rw [hne, Bool.or_false, (p2CodeBlock_pres env _ b).2, (p2DefaultHeader_pres env _ b).2.1]
      rfl


/-- The loop finds an END iff some block carries the END opcode. -/
theorem pass2Loop_endFound (env : Env) (blocks : List Block) (st : P2State)
    (hst : st.endFound = false) :
    (pass2Loop env st blocks).endFound =
      blocks.any (fun b => decide (b.opcode = "END".data)) := by
  induction blocks generalizing st with
  | nil => simpa using hst
  | cons b rest ih =>
    rw [pass2Loop]
    have hstep := pass2Step_endFound env st b
    rw [hst, Bool.false_or] at hstep
    split
    · rename_i hef
      rw [hef] at hstep
      simp only [List.any_cons, ← hstep, Bool.true_or]
      exact hef
    · rename_i hef
      have hne : decide (b.opcode = "END".data) = false := by
        rw [← hstep]
        simpa using hef
      rw [ih (pass2Step env st b) (by rw [hstep, hne])]
      simp [List.any_cons, hne]

/-- Provided END appears only as the last block (which pass 1
guarantees), the loop error flag accumulates the emptiness of every
block error list. -/
theorem pass2Loop_anyErrors (env : Env) (blocks : List Block) (st : P2State)
    (hst : st.endFound = false)
    (hl : ∀ b ∈ blocks.dropLast, ¬ b.opcode = "END".data) :
    (pass2Loop env st blocks).anyErrors =
      (st.anyErrors || blocks.any (fun b => !b.errorList.isEmpty)) := by
  induction blocks generalizing st with
  | nil =>
    rw [pass2Loop]
    simp
  | cons b rest ih =>
    rw [pass2Loop]
    have hstep := pass2Step_anyErrors env st b
    have hef := pass2Step_endFound env st b
    rw [hst, Bool.false_or] at hef
    split
    · rename_i he
      rw [he] at hef
      have hbend : b.opcode = "END".data := by
        have := hef.symm
        simpa using this
      cases rest with
      | nil => simp [List.any_cons, hstep]
      | cons b2 rest2 =>
        exact absurd hbend (hl b (by simp [List.dropLast_cons₂]))
    · rename_i he
      have hrest : ∀ x ∈ rest.dropLast, ¬ x.opcode = "END".data := by
        intro x hx
        cases rest with
        | nil => simp at hx
        | cons b2 rest2 =>
          exact hl x (by
            rw [List.dropLast_cons₂]
            exact List.mem_cons_of_mem b hx)
      rw [ih (pass2Step env st b) (by simpa using he) hrest, hstep]
      simp [List.any_cons, Bool.or_assoc]


/-- A successful association-list lookup yields a member pair. -/
theorem lookup_mem {l : List (List Char × Nat)} {k : List Char} {v : Nat}
    (h : List.lookup k l = some v) : (k, v) ∈ l := by
  induction l with
  | nil => simp [List.lookup] at h
  | cons p t ih =>
    rw [List.lookup] at h
    split at h
    · rename_i hbeq
      cases h
      have hk : k = p.1 := by simpa using hbeq
      rw [hk, Prod.mk.eta]
      exact List.mem_cons_self p t
    · exact List.mem_cons_of_mem p (ih h)

/-- The dispatch never writes the literal END as a block opcode: a found
mnemonic becomes a short hex string, everything else keeps the non-END
mnemonic. -/
theorem dispatch_opcodeStr_ne_end (opcode operand : List Char)
    (hne : ¬ opcode = "END".data) :
    ¬ (p1Dispatch opcode operand).opcodeStr = "END".data := by
  rw [p1Dispatch]
  have htab : ∀ p ∈ opcodeTable, ¬ natToHex p.2 = "END".data := by decide
  split_ifs <;> try simpa using hne
  · split <;> simpa using hne
  · split <;> simpa using hne
  · split <;> simpa using hne
  · cases hlk : List.lookup opcode opcodeTable with
    | some v =>
      simp only [hlk]
      exact htab (opcode, v) (lookup_mem hlk)
    | none =>
      simp only [hlk]
      simpa using hne


/-- The START branch appends one block carrying the START opcode. -/
theorem p1Start_blocks (st : P1State) (up label operand : List Char) :
    ∃ nb, (p1Start st up label operand).blocks = st.blocks ++ [nb] ∧
      nb.opcode = "START".data := by
  rw [p1Start]
  split
  · exact ⟨_, rfl, rfl⟩
  · exact ⟨_, rfl, rfl⟩

/-- The START branch ors anyErrors with the repeated-START condition. -/
theorem p1Start_anyErrors (st : P1State) (up label operand : List Char) :
    (p1Start st up label operand).anyErrors = (st.anyErrors || st.startFound) := by
  rw [p1Start]
  split <;> rfl

/-- A repeated START writes a block whose error list (starting with 0015)
is non-empty. -/
theorem p1Start_err (st : P1State) (up label operand : List Char)
    (hsf : st.startFound = true) :
    ∃ nb, (p1Start st up label operand).blocks = st.blocks ++ [nb] ∧
      (!nb.errorList.isEmpty) = true := by
  simp only [p1Start, hsf, if_true]
  split
  · exact ⟨_, rfl, by simp⟩
  · exact ⟨_, rfl, by simp⟩

/-- One pass-1 line preserves the END-only-as-last-block shape of the
intermediate stream. -/
theorem pass1Line_endinv (st : P1State) (line : List Char)
    (ih1 : st.finished = false → ∀ b ∈ st.blocks, ¬ b.opcode = "END".data)
    (ih2 : ∀ b ∈ st.blocks.dropLast, ¬ b.opcode = "END".data) :
    ((pass1Line st line).finished = false →
      ∀ b ∈ (pass1Line st line).blocks, ¬ b.opcode = "END".data) ∧
    (∀ b ∈ (pass1Line st line).blocks.dropLast, ¬ b.opcode = "END".data) := by
  rw [pass1Line.eq_def]
  split
  · exact ⟨ih1, ih2⟩
  · rename_i hfc
    simp only [Bool.or_eq_true, not_or, Bool.not_eq_true] at hfc
    obtain ⟨hf, hcr⟩ := hfc
    cases line with
    | nil => exact ⟨ih1, ih2⟩
    | cons c rest =>
      simp only
      split
      · exact ⟨ih1, ih2⟩
      · split
        · exact ⟨ih1, ih2⟩
        · split
          · obtain ⟨nb, hblk, hnb⟩ := p1Start_blocks st (listToUpper (c :: rest))
              (getColumns (c :: rest)).1 (getColumns (c :: rest)).2.2
            constructor
            · intro _ b hb
              rw [hblk] at hb
              rcases List.mem_append.mp hb with h | h
              · exact ih1 hf b h
              · rw [List.mem_singleton.mp h, hnb]
                decide
            · intro b hb
              rw [hblk, List.dropLast_concat] at hb
              exact ih1 hf b hb
          · rename_i hnstart
            set st1 := (if st.startFound = true then st
              else { st with locctr := 0, startingAddress := 0, startFound := true }) with hst1
            have hst1b : st1.blocks = st.blocks := by
              rw [hst1]
              split <;> rfl
            have hst1f : st1.finished = st.finished := by
              rw [hst1]
              split <;> rfl
            split
            · cases hoperand : (getColumns (c :: rest)).2.2 with
              | nil =>
                constructor
                · intro _ b hb
                  have hb2 : b ∈ st.blocks := by
                    rw [show (p1End st1 (listToUpper (c :: rest)) []
                      (p1OperandCheck (getColumns (c :: rest)).2.1 [])).blocks
                      = st1.blocks from rfl, hst1b] at hb
                    exact hb
                  exact ih1 hf b hb2
                · intro b hb
                  have hb2 : b ∈ st.blocks.dropLast := by
                    rw [show (p1End st1 (listToUpper (c :: rest)) []
                      (p1OperandCheck (getColumns (c :: rest)).2.1 [])).blocks
                      = st1.blocks from rfl, hst1b] at hb
                    exact hb
                  exact ih2 b hb2
              | cons d tail =>
                constructor
                · intro hfin
                  exfalso
                  have : (p1End st1 (listToUpper (c :: rest)) (d :: tail)
                      (p1OperandCheck (getColumns (c :: rest)).2.1 (d :: tail))).finished
                      = true := rfl
                  rw [this] at hfin
                  cases hfin
                · intro b hb
                  have hblocks : (p1End st1 (listToUpper (c :: rest)) (d :: tail)
                      (p1OperandCheck (getColumns (c :: rest)).2.1 (d :: tail))).blocks
                      = st1.blocks ++ [_] := rfl
                  rw [hblocks, List.dropLast_concat, hst1b] at hb
                  exact ih1 hf b hb
            · rename_i hnend
              have hblocks := p1General_blocks st1 (listToUpper (c :: rest))
                (getColumns (c :: rest)).1 (getColumns (c :: rest)).2.1
                (getColumns (c :: rest)).2.2
                (p1OperandCheck (getColumns (c :: rest)).2.1 (getColumns (c :: rest)).2.2)
              constructor
              · intro _ b hb
                rw [hblocks, hst1b] at hb
                rcases List.mem_append.mp hb with h | h
                · exact ih1 hf b h
                · rw [List.mem_singleton.mp h]
                  exact dispatch_opcodeStr_ne_end (getColumns (c :: rest)).2.1
                    (getColumns (c :: rest)).2.2 hnend
              · intro b hb
                rw [hblocks, hst1b, List.dropLast_concat] at hb
                exact ih1 hf b hb


/-- One pass-1 line preserves: if anyErrors is set, some block has a
non-empty error list (the flag is only ever set together with 0015). -/
theorem pass1Line_anyerr (st : P1State) (line : List Char)
    (ih : st.anyErrors = true → ∃ b ∈ st.blocks, (!b.errorList.isEmpty) = true) :
    (pass1Line st line).anyErrors = true →
      ∃ b ∈ (pass1Line st line).blocks, (!b.errorList.isEmpty) = true := by
  rw [pass1Line.eq_def]
  split
  · exact ih
  · cases line with
    | nil => exact ih
    | cons c rest =>
      simp only
      split
      · exact ih
      · split
        · exact ih
        · split
          · intro hae
            rw [p1Start_anyErrors] at hae
            rcases Bool.or_eq_true_iff.mp hae with h | h
            · obtain ⟨b, hb, he⟩ := ih h
              obtain ⟨nb, hblk, _⟩ := p1Start_blocks st (listToUpper (c :: rest))
                (getColumns (c :: rest)).1 (getColumns (c :: rest)).2.2
              exact ⟨b, by rw [hblk]; exact List.mem_append_left _ hb, he⟩
            · obtain ⟨nb, hblk, he⟩ := p1Start_err st (listToUpper (c :: rest))
                (getColumns (c :: rest)).1 (getColumns (c :: rest)).2.2 h
              exact ⟨nb, by rw [hblk]; exact List.mem_append_right _ (List.mem_singleton_self nb), he⟩
          · set st1 := (if st.startFound = true then st
              else { st with locctr := 0, startingAddress := 0, startFound := true }) with hst1
            have hst1b : st1.blocks = st.blocks := by
              rw [hst1]
              split <;> rfl
            have hst1a : st1.anyErrors = st.anyErrors := by
              rw [hst1]
              split <;> rfl
            split
            · cases hoperand : (getColumns (c :: rest)).2.2 with
              | nil =>
                intro hae
                have hae2 : st.anyErrors = true := by
                  rw [← hst1a]
                  exact hae
                obtain ⟨b, hb, he⟩ := ih hae2
                exact ⟨b, by rw [show (p1End st1 (listToUpper (c :: rest)) []
                  (p1OperandCheck (getColumns (c :: rest)).2.1 [])).blocks
                  = st1.blocks from rfl, hst1b]; exact hb, he⟩
              | cons d tail =>
                intro hae
                have hae2 : st.anyErrors = true := by
                  rw [← hst1a]
                  exact hae
                obtain ⟨b, hb, he⟩ := ih hae2
                refine ⟨b, ?_, he⟩
                have hblocks : (p1End st1 (listToUpper (c :: rest)) (d :: tail)
                    (p1OperandCheck (getColumns (c :: rest)).2.1 (d :: tail))).blocks
                    = st1.blocks ++ [_] := rfl
                rw [hblocks, hst1b]
                exact List.mem_append_left _ hb
            · intro hae
              have hae2 : st.anyErrors = true := by
                rw [← hst1a]
                exact hae
              obtain ⟨b, hb, he⟩ := ih hae2
              have hblocks := p1General_blocks st1 (listToUpper (c :: rest))
                (getColumns (c :: rest)).1 (getColumns (c :: rest)).2.1
                (getColumns (c :: rest)).2.2
                (p1OperandCheck (getColumns (c :: rest)).2.1 (getColumns (c :: rest)).2.2)
              refine ⟨b, ?_, he⟩
              rw [hblocks, hst1b]
              exact List.mem_append_left _ hb


/-- After pass 1, END can only be the last block of the intermediate
stream. -/
theorem pass1_endOnlyLast (lines : List (List Char)) :
    ∀ b ∈ (pass1Run lines).blocks.dropLast, ¬ b.opcode = "END".data := by
  suffices h : ∀ st : P1State,
      (st.finished = false → ∀ b ∈ st.blocks, ¬ b.opcode = "END".data) →
      (∀ b ∈ st.blocks.dropLast, ¬ b.opcode = "END".data) →
      ((pass1From st lines).finished = false →
        ∀ b ∈ (pass1From st lines).blocks, ¬ b.opcode = "END".data) ∧
      (∀ b ∈ (pass1From st lines).blocks.dropLast, ¬ b.opcode = "END".data) by
    exact (h p1Init (fun _ b hb => absurd hb (List.not_mem_nil b))
      (fun b hb => absurd hb (List.not_mem_nil b))).2
  induction lines with
  | nil => exact fun st h1 h2 => ⟨h1, h2⟩
  | cons l t ih =>
    intro st h1 h2
    obtain ⟨g1, g2⟩ := pass1Line_endinv st l h1 h2
    exact ih (pass1Line st l) g1 g2

/-- After pass 1, a set anyErrors flag implies some block has a non-empty
error list. -/
theorem pass1_anyErrors (lines : List (List Char)) :
    (pass1Run lines).anyErrors = true →
      ∃ b ∈ (pass1Run lines).blocks, (!b.errorList.isEmpty) = true := by
  suffices h : ∀ st : P1State,
      (st.anyErrors = true → ∃ b ∈ st.blocks, (!b.errorList.isEmpty) = true) →
      ((pass1From st lines).anyErrors = true →
        ∃ b ∈ (pass1From st lines).blocks, (!b.errorList.isEmpty) = true) by
    exact h p1Init (fun hae => absurd hae (by simp [p1Init]))
  induction lines with
  | nil => exact fun st h => h
  | cons l t ih => exact fun st h => ih (pass1Line st l) (pass1Line_anyerr st l h)

/-- C8, confirmed: provided pass 1 did not throw (END with an empty
operand), object.txt is missing after pass 2 iff some source line
accumulated a non-empty error list, the final location counter exceeds
MSIZE, or no END block exists; in particular an error-free assembly
retains the file. -/
theorem claim8_object_file (lines : List (List Char))
    (hcr : (pass1Run lines).crashed = false) :
    (assemble lines).objectFileExists = false ↔
      ((∃ b ∈ (pass1Run lines).blocks, b.errorList ≠ []) ∨
        (pass1Run lines).locctr > MSIZE ∨
        ¬ ∃ b ∈ (pass1Run lines).blocks, b.opcode = "END".data) := by
  have hpost := pass2Post_anyErrors (envOf (pass1Run lines))
    (pass2Loop (envOf (pass1Run lines)) (p2Init (pass1Run lines).anyErrors)
      (pass1Run lines).blocks)
  have hexists : (assemble lines).objectFileExists =
      !((pass2Loop (envOf (pass1Run lines)) (p2Init (pass1Run lines).anyErrors)
          (pass1Run lines).blocks).anyErrors ||
        decide ((envOf (pass1Run lines)).locctr > MSIZE) ||
        !(pass2Loop (envOf (pass1Run lines)) (p2Init (pass1Run lines).anyErrors)
          (pass1Run lines).blocks).endFound) := by
    have h2 := hpost.2
    rw [hpost.1] at h2
    exact h2
  have haeL := pass2Loop_anyErrors (envOf (pass1Run lines)) (pass1Run lines).blocks
    (p2Init (pass1Run lines).anyErrors) rfl (pass1_endOnlyLast lines)
  have hefL := pass2Loop_endFound (envOf (pass1Run lines)) (pass1Run lines).blocks
    (p2Init (pass1Run lines).anyErrors) rfl
  rw [hexists, haeL, hefL]
  have henv : (envOf (pass1Run lines)).locctr = (pass1Run lines).locctr := rfl
  rw [henv]
  have hbnot : ∀ b : Bool, ((!b) = false ↔ b = true) := by decide
  rw [hbnot]
  constructor
  · intro h
    rcases Bool.or_eq_true_iff.mp h with h1 | h4
    · rcases Bool.or_eq_true_iff.mp h1 with h2 | h3
      · rcases Bool.or_eq_true_iff.mp h2 with h5 | h6
        · obtain ⟨b, hb, he⟩ := pass1_anyErrors lines h5
          refine Or.inl ⟨b, hb, ?_⟩
          simpa [List.isEmpty_iff] using he
        · obtain ⟨b, hb, he⟩ := List.any_eq_true.mp h6
          refine Or.inl ⟨b, hb, ?_⟩
          simpa [List.isEmpty_iff] using he
      · exact Or.inr (Or.inl (by simpa using h3))
    · refine Or.inr (Or.inr ?_)
      intro hex
      obtain ⟨b, hb, he⟩ := hex
      have hany : (pass1Run lines).blocks.any (fun b => decide (b.opcode = "END".data)) = true :=
        List.any_eq_true.mpr ⟨b, hb, by simpa using he⟩
      rw [hany] at h4
      simp at h4
  · intro h
    rcases h with ⟨b, hb, he⟩ | h | h
    · refine Bool.or_eq_true_iff.mpr (Or.inl ?_)
      refine Bool.or_eq_true_iff.mpr (Or.inl ?_)
      refine Bool.or_eq_true_iff.mpr (Or.inr ?_)
      exact List.any_eq_true.mpr ⟨b, hb, by simpa [List.isEmpty_iff] using he⟩
    · refine Bool.or_eq_true_iff.mpr (Or.inl ?_)
      refine Bool.or_eq_true_iff.mpr (Or.inr ?_)
      simpa using h
    · refine Bool.or_eq_true_iff.mpr (Or.inr ?_)
      have hany : (pass1Run lines).blocks.any (fun b => decide (b.opcode = "END".data)) = false := by
        rw [List.any_eq_false]
        intro b hb
        simp only [decide_eq_true_eq]
        intro hbe
        exact h ⟨b, hb, hbe⟩
      rw [hany]
      rfl

/-- Witness for claim8_object_file at the valid one-instruction
program. -/
theorem claim8_object_file_witness :
    (assemble c8Lines).objectFileExists = false ↔
      ((∃ b ∈ (pass1Run c8Lines).blocks, b.errorList ≠ []) ∨
        (pass1Run c8Lines).locctr > MSIZE ∨
        ¬ ∃ b ∈ (pass1Run c8Lines).blocks, b.opcode = "END".data) :=
  claim8_object_file c8Lines (by decide)

/-! ## The error placeholder in the text records -/

/-- The buffer append leaves startSet unchanged. -/
theorem p2Append_startSet (st : P2State) (oc : List Char) :
    (p2Append st oc).startSet = st.startSet := by
  rw [p2Append]
  split_ifs <;> rfl

/-- The flush leaves startSet unchanged. -/
theorem p2FlushIfNeeded_startSet (st : P2State) (oc addr : List Char) :
    (p2FlushIfNeeded st oc addr).startSet = st.startSet := by
  rw [p2FlushIfNeeded]
  split_ifs <;> rfl

/-- The deferred record opening leaves startSet unchanged. -/
theorem p2OpenPending_startSet (st : P2State) (oc addr : List Char) :
    (p2OpenPending st oc addr).startSet = st.startSet := by
  rw [p2OpenPending]
  split_ifs <;> rfl

/-- An ordinary block leaves startSet unchanged. -/
theorem p2CodeBlock_startSet (env : Env) (st : P2State) (b : Block) :
    (p2CodeBlock env st b).startSet = st.startSet := by
  simp only [p2CodeBlock]
  rw [p2Append_startSet, p2FlushIfNeeded_startSet, p2OpenPending_startSet]

/-- Flush-then-append in one equation: the new buffer is the old buffer
(emptied when the append would overflow 60 characters) extended by the
object code. -/
theorem p2FlushAppend_buffer_eq (st : P2State) (oc addr : List Char)
    (hoc : ¬ oc = []) :
    (p2Append (p2FlushIfNeeded st oc addr) oc).buffer =
      (if st.buffer.length ≠ 0 ∧ oc.length + st.buffer.length > 60 then []
        else st.buffer) ++ oc := by
  rw [p2FlushIfNeeded, p2Append.eq_def]
  split_ifs <;> simp_all

/-- Once startSet holds it keeps holding across a pass-2 step. -/
theorem pass2Step_startSet (env : Env) (st : P2State) (b : Block)
    (hss : st.startSet = true) : (pass2Step env st b).startSet = true := by
  rw [pass2Step]
  have hm : (p2MarkErrors st b).startSet = true := hss
  have hd : (p2DefaultHeader env (p2MarkErrors st b) b).startSet = true := by
    rw [p2DefaultHeader]
    split_ifs <;> simp_all [p2MarkErrors]
  split
  · rw [p2StartBlock]
    split_ifs <;> rfl
  · split
    · rw [p2EndBlock.eq_def]
      split_ifs <;> exact hd
    · rw [p2CodeBlock_startSet]
      exact hd

/-- C10, confirmed: a mid-stream errored block (neither START nor END)
contributes the six-character "------" placeholder to the text-record
buffer exactly like object code: it is appended after the usual
would-overflow flush against the 60-character cap, the step raises
anyErrors, the following END block flushes the buffer into a text record
whose length byte counts the placeholder and whose section ends in the
placeholder (uppercased like the rest), and the object file is finally
reported missing because of the error. -/
theorem claim10_placeholder (env : Env) (st : P2State) (b eb : Block) (rest : List Block)
    (hss : st.startSet = true) (hef : st.endFound = false)
    (h1 : ¬ b.opcode = "START".data) (h2 : ¬ b.opcode = "END".data)
    (h3 : ¬ b.errorList = []) (h4 : eb.opcode = "END".data) :
    (pass2Step env st b).buffer =
      (if st.buffer.length ≠ 0 ∧ 6 + st.buffer.length > 60 then [] else st.buffer)
        ++ "------".data ∧
    (pass2Step env st b).anyErrors = true ∧
    pass2Loop env st (b :: eb :: rest) = pass2Step env (pass2Step env st b) eb ∧
    (pass2Step env (pass2Step env st b) eb).objectFile =
      (pass2Step env st b).objectFile ++
        [ObjPiece.recEnd
          (padLeft 2 '0' (listToUpper (natToHex ((pass2Step env st b).buffer.length / 2))))
          (listToUpper (pass2Step env st b).buffer),
         createEndRecord env.startingAddress] ∧
    List.IsSuffix ("------".data) (listToUpper (pass2Step env st b).buffer) ∧
    (pass2Post env (pass2Step env (pass2Step env st b) eb)).objectFileExists = false := by
  have hocne : ¬ ("------".data) = ([] : List Char) := by decide
  have hocv : (if b.errorList.isEmpty = true then createObjectCode env.symtab b.opcode b.operand
      else "------".data) = "------".data := by
    rw [if_neg (by simp [List.isEmpty_iff, h3])]
  have hdh : p2DefaultHeader env (p2MarkErrors st b) b = p2MarkErrors st b := by
    rw [p2DefaultHeader, if_neg (by simp [p2MarkErrors, hss])]
  have hstep1 : pass2Step env st b = p2CodeBlock env (p2MarkErrors st b) b := by
    rw [pass2Step, if_neg h1, if_neg h2, hdh]
  have hbuf1 : (pass2Step env st b).buffer =
      (if st.buffer.length ≠ 0 ∧ 6 + st.buffer.length > 60 then [] else st.buffer)
        ++ "------".data := by
    rw [hstep1]
    simp only [p2CodeBlock, hocv]
    rw [p2FlushAppend_buffer_eq _ _ _ hocne]
    have hob : (p2OpenPending { p2MarkErrors st b with
        listing := (p2MarkErrors st b).listing ++
          [ListingEntry.row b.address ("------".data) b.srcLine b.errorList] }
        ("------".data) b.address).buffer = st.buffer := by
      rw [(p2OpenPending_cap _ _ _).1]
      rfl
    rw [hob]
    have h6 : ("------".data).length = 6 := rfl
    rw [h6]
  have hany1 : (pass2Step env st b).anyErrors = true := by
    rw [pass2Step_anyErrors]
    have hne : b.errorList.isEmpty = false := by simp [List.isEmpty_iff, h3]
    rw [hne]
    simp
  have hbne : ¬ (pass2Step env st b).buffer = [] := by
    rw [hbuf1]
    simp
  have hef1 : (pass2Step env st b).endFound = false := by
    rw [pass2Step_endFound, hef]
    simp [h2]
  have hss1 : (pass2Step env st b).startSet = true := pass2Step_startSet env st b hss
  have hloop : pass2Loop env st (b :: eb :: rest) =
      pass2Step env (pass2Step env st b) eb := by
    rw [pass2Loop]
    split
    · rename_i hc
      rw [hef1] at hc
      exact Bool.noConfusion hc
    · rw [pass2Loop]
      split
      · rfl
      · rename_i hc
        exact absurd (by rw [pass2Step_endFound, h4]; simp) hc
  have hobj2 : (pass2Step env (pass2Step env st b) eb).objectFile =
      (pass2Step env st b).objectFile ++
        [ObjPiece.recEnd
          (padLeft 2 '0' (listToUpper (natToHex ((pass2Step env st b).buffer.length / 2))))
          (listToUpper (pass2Step env st b).buffer),
         createEndRecord env.startingAddress] := by
    have hns : ¬ eb.opcode = "START".data := by rw [h4]; decide
    rw [pass2Step, if_neg hns, if_pos h4]
    have hdh2 : p2DefaultHeader env (p2MarkErrors (pass2Step env st b) eb) eb =
        p2MarkErrors (pass2Step env st b) eb := by
      rw [p2DefaultHeader, if_neg (by simp [p2MarkErrors, hss1])]
    rw [hdh2, p2EndBlock.eq_def]
    rw [if_pos (by
      show ¬ (p2MarkErrors (pass2Step env st b) eb).buffer.length = 0
      simp [p2MarkErrors, List.length_eq_zero, hbne])]
    simp [p2MarkErrors, finishTextRecord]
  have hmap : List.map toUpperChar ("------".data) = "------".data := by decide
  have hsuf : List.IsSuffix ("------".data) (listToUpper (pass2Step env st b).buffer) := by
    rw [hbuf1, listToUpper, List.map_append, hmap]
    exact ⟨_, rfl⟩
  have hex : (pass2Post env (pass2Step env (pass2Step env st b) eb)).objectFileExists
      = false := by
    have hany2 : (pass2Step env (pass2Step env st b) eb).anyErrors = true := by
      rw [pass2Step_anyErrors, hany1]
      simp
    have hp := pass2Post_anyErrors env (pass2Step env (pass2Step env st b) eb)
    rw [hp.2, hp.1, hany2]
    simp
  exact ⟨hbuf1, hany1, hloop, hobj2, hsuf, hex⟩

/-- Witness for claim10_placeholder at a one-error-line program: empty
buffer, errored LDA line, then END. -/
theorem claim10_placeholder_witness :
    (pass2Step ⟨[], 0, 0, 0⟩ ⟨[], true, false, false, false, [], []⟩
        ⟨"L".data, "00".data, "0".data, "X".data, "0002".data⟩).buffer =
      (if ([] : List Char).length ≠ 0 ∧ 6 + ([] : List Char).length > 60 then []
        else ([] : List Char)) ++ "------".data ∧
    (pass2Step ⟨[], 0, 0, 0⟩ ⟨[], true, false, false, false, [], []⟩
        ⟨"L".data, "00".data, "0".data, "X".data, "0002".data⟩).anyErrors = true ∧
    pass2Loop ⟨[], 0, 0, 0⟩ ⟨[], true, false, false, false, [], []⟩
        [⟨"L".data, "00".data, "0".data, "X".data, "0002".data⟩,
         ⟨"E".data, "END".data, "3".data, "L".data, []⟩] =
      pass2Step ⟨[], 0, 0, 0⟩
        (pass2Step ⟨[], 0, 0, 0⟩ ⟨[], true, false, false, false, [], []⟩
          ⟨"L".data, "00".data, "0".data, "X".data, "0002".data⟩)
        ⟨"E".data, "END".data, "3".data, "L".data, []⟩ ∧
    (pass2Step ⟨[], 0, 0, 0⟩
        (pass2Step ⟨[], 0, 0, 0⟩ ⟨[], true, false, false, false, [], []⟩
          ⟨"L".data, "00".data, "0".data, "X".data, "0002".data⟩)
        ⟨"E".data, "END".data, "3".data, "L".data, []⟩).objectFile =
      (pass2Step ⟨[], 0, 0, 0⟩ ⟨[], true, false, false, false, [], []⟩
          ⟨"L".data, "00".data, "0".data, "X".data, "0002".data⟩).objectFile ++
        [ObjPiece.recEnd
          (padLeft 2 '0' (listToUpper (natToHex
            ((pass2Step ⟨[], 0, 0, 0⟩ ⟨[], true, false, false, false, [], []⟩
              ⟨"L".data, "00".data, "0".data, "X".data, "0002".data⟩).buffer.length / 2))))
          (listToUpper (pass2Step ⟨[], 0, 0, 0⟩ ⟨[], true, false, false, false, [], []⟩
            ⟨"L".data, "00".data, "0".data, "X".data, "0002".data⟩).buffer),
         createEndRecord (⟨[], 0, 0, 0⟩ : Env).startingAddress] ∧
    List.IsSuffix ("------".data)
      (listToUpper (pass2Step ⟨[], 0, 0, 0⟩ ⟨[], true, false, false, false, [], []⟩
        ⟨"L".data, "00".data, "0".data, "X".data, "0002".data⟩).buffer) ∧
    (pass2Post ⟨[], 0, 0, 0⟩
      (pass2Step ⟨[], 0, 0, 0⟩
        (pass2Step ⟨[], 0, 0, 0⟩ ⟨[], true, false, false, false, [], []⟩
          ⟨"L".data, "00".data, "0".data, "X".data, "0002".data⟩)
        ⟨"E".data, "END".data, "3".data, "L".data, []⟩)).objectFileExists = false :=
  claim10_placeholder ⟨[], 0, 0, 0⟩ ⟨[], true, false, false, false, [], []⟩
    ⟨"L".data, "00".data, "0".data, "X".data, "0002".data⟩
    ⟨"E".data, "END".data, "3".data, "L".data, []⟩ []
    rfl rfl (by decide) (by decide) (by decide) rfl

end SIC
